import Mathlib

/-!
Verification of the capability-to-entity mapping engine of the goveelife
climate platform (custom_components/goveelife/climate.py).

The embedding is shallow: Python values are modelled by the inductive type
PyVal (numbers as Int / Rat, so IEEE floating point rounding is not
modelled; the arithmetic the code performs is modelled exactly over Rat).
Python dictionaries are insertion-ordered association lists whose update
keeps the position of an existing key, as CPython dicts do.  Fallible
Python code is modelled in the Except monad: subscription of a missing
key raises keyError, attribute access on a non-dict raises attributeError,
and so on.  Caught-and-logged situations in the source are modelled as
ordinary return paths.

Known deliberate simplifications, each local and documented at its
definition: dictionary keys are compared structurally (the Python
hash-equality of 1 and 1.0 as keys is not modelled); the Python str()
rendering of floats, lists and dicts is abbreviated (only str and int
renderings, the ones the vendor schema exercises, are exact); the string
accepted by float() is a plain decimal literal (no exponents, infinities
or surrounding whitespace).
-/

/-- Python error kinds raised by the modelled fragments. -/
inductive PyErr where
  | keyError
  | typeError
  | attributeError
  | valueError
deriving DecidableEq

/-- Python values: None, bool, int, float (as a rational), str, list, dict. -/
inductive PyVal where
  | pnone
  | pbool (b : Bool)
  | pint (n : Int)
  | pfloat (q : ℚ)
  | pstr (s : String)
  | plist (xs : List PyVal)
  | pdict (es : List (String × PyVal))

mutual

/-- Structural equality test on PyVal. -/
def PyVal.beq : PyVal → PyVal → Bool
  | .pnone, .pnone => true
  | .pbool a, .pbool b => a == b
  | .pint a, .pint b => a == b
  | .pfloat a, .pfloat b => a == b
  | .pstr a, .pstr b => a == b
  | .plist xs, .plist ys => PyVal.beqList xs ys
  | .pdict xs, .pdict ys => PyVal.beqDict xs ys
  | _, _ => false

/-- Structural equality test on lists of PyVal. -/
def PyVal.beqList : List PyVal → List PyVal → Bool
  | [], [] => true
  | x :: xs, y :: ys => PyVal.beq x y && PyVal.beqList xs ys
  | _, _ => false

/-- Structural equality test on dict entry lists. -/
def PyVal.beqDict : List (String × PyVal) → List (String × PyVal) → Bool
  | [], [] => true
  | x :: xs, y :: ys => x.1 == y.1 && PyVal.beq x.2 y.2 && PyVal.beqDict xs ys
  | _, _ => false

end

mutual

/-- Soundness and completeness of the structural equality test. -/
theorem PyVal.beq_iff : ∀ a b : PyVal, PyVal.beq a b = true ↔ a = b
  | .pnone, .pnone => by simp [PyVal.beq]
  | .pbool _, .pbool _ => by simp [PyVal.beq]
  | .pint _, .pint _ => by simp [PyVal.beq]
  | .pfloat _, .pfloat _ => by simp [PyVal.beq]
  | .pstr _, .pstr _ => by simp [PyVal.beq]
  | .plist xs, .plist ys => by
      simp only [PyVal.beq, PyVal.beqList_iff xs ys]
      constructor
      · intro h; rw [h]
      · intro h; cases h; rfl
  | .pdict xs, .pdict ys => by
      simp only [PyVal.beq, PyVal.beqDict_iff xs ys]
      constructor
      · intro h; rw [h]
      · intro h; cases h; rfl
  | .pnone, .pbool _ => by simp [PyVal.beq]
  | .pnone, .pint _ => by simp [PyVal.beq]
  | .pnone, .pfloat _ => by simp [PyVal.beq]
  | .pnone, .pstr _ => by simp [PyVal.beq]
  | .pnone, .plist _ => by simp [PyVal.beq]
  | .pnone, .pdict _ => by simp [PyVal.beq]
  | .pbool _, .pnone => by simp [PyVal.beq]
  | .pbool _, .pint _ => by simp [PyVal.beq]
  | .pbool _, .pfloat _ => by simp [PyVal.beq]
  | .pbool _, .pstr _ => by simp [PyVal.beq]
  | .pbool _, .plist _ => by simp [PyVal.beq]
  | .pbool _, .pdict _ => by simp [PyVal.beq]
  | .pint _, .pnone => by simp [PyVal.beq]
  | .pint _, .pbool _ => by simp [PyVal.beq]
  | .pint _, .pfloat _ => by simp [PyVal.beq]
  | .pint _, .pstr _ => by simp [PyVal.beq]
  | .pint _, .plist _ => by simp [PyVal.beq]
  | .pint _, .pdict _ => by simp [PyVal.beq]
  | .pfloat _, .pnone => by simp [PyVal.beq]
  | .pfloat _, .pbool _ => by simp [PyVal.beq]
  | .pfloat _, .pint _ => by simp [PyVal.beq]
  | .pfloat _, .pstr _ => by simp [PyVal.beq]
  | .pfloat _, .plist _ => by simp [PyVal.beq]
  | .pfloat _, .pdict _ => by simp [PyVal.beq]
  | .pstr _, .pnone => by simp [PyVal.beq]
  | .pstr _, .pbool _ => by simp [PyVal.beq]
  | .pstr _, .pint _ => by simp [PyVal.beq]
  | .pstr _, .pfloat _ => by simp [PyVal.beq]
  | .pstr _, .plist _ => by simp [PyVal.beq]
  | .pstr _, .pdict _ => by simp [PyVal.beq]
  | .plist _, .pnone => by simp [PyVal.beq]
  | .plist _, .pbool _ => by simp [PyVal.beq]
  | .plist _, .pint _ => by simp [PyVal.beq]
  | .plist _, .pfloat _ => by simp [PyVal.beq]
  | .plist _, .pstr _ => by simp [PyVal.beq]
  | .plist _, .pdict _ => by simp [PyVal.beq]
  | .pdict _, .pnone => by simp [PyVal.beq]
  | .pdict _, .pbool _ => by simp [PyVal.beq]
  | .pdict _, .pint _ => by simp [PyVal.beq]
  | .pdict _, .pfloat _ => by simp [PyVal.beq]
  | .pdict _, .pstr _ => by simp [PyVal.beq]
  | .pdict _, .plist _ => by simp [PyVal.beq]

/-- List version of the soundness of structural equality. -/
theorem PyVal.beqList_iff : ∀ xs ys : List PyVal, PyVal.beqList xs ys = true ↔ xs = ys
  | [], [] => by simp [PyVal.beqList]
  | x :: xs, y :: ys => by
      simp [PyVal.beqList, PyVal.beq_iff x y, PyVal.beqList_iff xs ys]
  | [], _ :: _ => by simp [PyVal.beqList]
  | _ :: _, [] => by simp [PyVal.beqList]

/-- Dict version of the soundness of structural equality. -/
theorem PyVal.beqDict_iff : ∀ xs ys : List (String × PyVal), PyVal.beqDict xs ys = true ↔ xs = ys
  | [], [] => by simp [PyVal.beqDict]
  | x :: xs, y :: ys => by
      simp [PyVal.beqDict, PyVal.beq_iff x.2 y.2, PyVal.beqDict_iff xs ys, Prod.ext_iff]
  | [], _ :: _ => by simp [PyVal.beqDict]
  | _ :: _, [] => by simp [PyVal.beqDict]

end

instance : DecidableEq PyVal := fun a b =>
  decidable_of_iff (PyVal.beq a b = true) (PyVal.beq_iff a b)

instance {e a : Type} [DecidableEq e] [DecidableEq a] : DecidableEq (Except e a) := fun x y =>
  match x, y with
  | .error u, .error v => if h : u = v then .isTrue (by rw [h]) else .isFalse (by simp [h])
  | .ok u, .ok v => if h : u = v then .isTrue (by rw [h]) else .isFalse (by simp [h])
  | .error _, .ok _ => .isFalse (by simp)
  | .ok _, .error _ => .isFalse (by simp)

/-- Numeric view of a Python value: bool, int and float are all numbers. -/
def PyVal.toNum? : PyVal → Option ℚ
  | .pbool b => some (if b then 1 else 0)
  | .pint n => some (n : ℚ)
  | .pfloat q => some q
  | _ => none

/-- Python equality (the == operator): numeric values compare by value
across bool, int and float; everything else compares structurally.
Numeric coercion inside nested lists and dicts is not modelled. -/
def pyEq (v w : PyVal) : Bool :=
  match v.toNum?, w.toNum? with
  | some a, some b => decide (a = b)
  | _, _ => decide (v = w)

/-- Python equality is reflexive. -/
theorem pyEq_refl (v : PyVal) : pyEq v v = true := by
  unfold pyEq
  cases h : v.toNum? <;> simp

/-- Python equality between two str values is string equality. -/
theorem pyEq_str (a b : String) : pyEq (.pstr a) (.pstr b) = true ↔ a = b := by
  unfold pyEq
  simp [PyVal.toNum?]

/-- Python truthiness: None, False, zero, empty string, list and dict are falsy. -/
def PyVal.truthy : PyVal → Bool
  | .pnone => false
  | .pbool b => b
  | .pint n => decide (n ≠ 0)
  | .pfloat q => decide (q ≠ 0)
  | .pstr s => decide (s ≠ "")
  | .plist xs => !xs.isEmpty
  | .pdict es => !es.isEmpty

/-- Python str() rendering, exact for the shapes the vendor schema uses
(str and int); the float, list and dict renderings are abbreviated. -/
def pyStr : PyVal → String
  | .pnone => "None"
  | .pbool true => "True"
  | .pbool false => "False"
  | .pint n => toString n
  | .pfloat q => toString q
  | .pstr s => s
  | .plist _ => "[list]"
  | .pdict _ => "[dict]"

section PyDict

variable {K V : Type} [DecidableEq K]

/-- Lookup in an insertion-ordered association list (first match). -/
def dlookup : List (K × V) → K → Option V
  | [], _ => none
  | e :: rest, k => if e.1 = k then some e.2 else dlookup rest k

/-- Dictionary update with CPython semantics: an existing key keeps its
position, a new key is appended at the end. -/
def dinsert : List (K × V) → K → V → List (K × V)
  | [], k, v => [(k, v)]
  | e :: rest, k, v => if e.1 = k then (k, v) :: rest else e :: dinsert rest k v

/-- Keys of an association list, in order. -/
def dkeys (d : List (K × V)) : List K := d.map Prod.fst

/-- Apply a sequence of dictionary updates in order. -/
def applyInserts (d : List (K × V)) (S : List (K × V)) : List (K × V) :=
  S.foldl (fun acc e => dinsert acc e.1 e.2) d

end PyDict

/-- Subscription d[k] on a Python value: keyError on a dict without the
key, typeError on values that do not support string subscription. -/
def PyVal.getItem (v : PyVal) (k : String) : Except PyErr PyVal :=
  match v with
  | .pdict es =>
      match dlookup es k with
      | some x => Except.ok x
      | none => Except.error PyErr.keyError
  | _ => Except.error PyErr.typeError

/-- Method call v.get(k, default) on a Python value: attributeError when v
is not a dict (in particular when v is None). -/
def PyVal.pyGet (v : PyVal) (k : String) (default : PyVal) : Except PyErr PyVal :=
  match v with
  | .pdict es => Except.ok ((dlookup es k).getD default)
  | _ => Except.error PyErr.attributeError

/-- Iteration over a Python value: lists yield their items, strings their
characters, dicts their keys; other values raise typeError. -/
def pyIter : PyVal → Except PyErr (List PyVal)
  | .plist xs => Except.ok xs
  | .pstr s => Except.ok (s.data.map (fun c => .pstr (String.singleton c)))
  | .pdict es => Except.ok (es.map (fun e => .pstr e.1))
  | _ => Except.error PyErr.typeError

/-- Characterwise uppercase of a string, the behaviour of the upper
method on the ASCII member names this module deals in. -/
def strUpper (s : String) : String := String.mk (s.data.map Char.toUpper)

/-- Method call v.upper(): attributeError on non-strings. -/
def pyUpper : PyVal → Except PyErr PyVal
  | .pstr s => Except.ok (.pstr (strUpper s))
  | _ => Except.error PyErr.attributeError

/-- Value of a list of decimal digit characters. -/
def decDigitsVal (cs : List Char) : ℕ :=
  cs.foldl (fun a c => 10 * a + (c.toNat - 48)) 0

/-- Parse a plain unsigned decimal literal (digits with an optional dot). -/
def parseUnsigned? (cs : List Char) : Option ℚ :=
  match cs.span (fun c => c ≠ '.') with
  | (intPart, []) =>
      if intPart.all Char.isDigit && !intPart.isEmpty then
        some (decDigitsVal intPart)
      else none
  | (intPart, _ :: fracPart) =>
      if intPart.all Char.isDigit && fracPart.all Char.isDigit &&
          (!intPart.isEmpty || !fracPart.isEmpty) then
        some ((decDigitsVal intPart : ℚ) +
          (decDigitsVal fracPart : ℚ) / ((10 : ℚ) ^ fracPart.length))
      else none

/-- Parse a plain signed decimal literal, the fragment of the Python float
constructor on strings exercised here (no exponents or infinities). -/
def parseDecimal? (s : String) : Option ℚ :=
  match s.data with
  | '-' :: rest => (parseUnsigned? rest).map (fun q => -q)
  | '+' :: rest => parseUnsigned? rest
  | cs => parseUnsigned? cs

/-- Conversion float(v): numbers convert by value, strings are parsed as
decimal literals (valueError on failure), other values raise typeError. -/
def pyFloat : PyVal → Except PyErr ℚ
  | .pbool b => Except.ok (if b then 1 else 0)
  | .pint n => Except.ok (n : ℚ)
  | .pfloat q => Except.ok q
  | .pstr s =>
      match parseDecimal? s with
      | some q => Except.ok q
      | none => Except.error PyErr.valueError
  | _ => Except.error PyErr.typeError

/-- Python membership test v in xs, using Python equality. -/
def pyMem (v : PyVal) (xs : List PyVal) : Bool := xs.any (fun x => pyEq v x)

/-- Temperature unit enum of the host framework; the member names used by
the subscription UnitOfTemperature[name] are CELSIUS, FAHRENHEIT, KELVIN. -/
inductive UnitOfTemperature where
  | celsius
  | fahrenheit
  | kelvin
deriving DecidableEq

/-- Subscription UnitOfTemperature[s]: keyError on an unknown member name. -/
def unitOfTemperatureItem (s : String) : Except PyErr UnitOfTemperature :=
  if s = "CELSIUS" then Except.ok UnitOfTemperature.celsius
  else if s = "FAHRENHEIT" then Except.ok UnitOfTemperature.fahrenheit
  else if s = "KELVIN" then Except.ok UnitOfTemperature.kelvin
  else Except.error PyErr.keyError

/-- The two hvac modes this platform uses. -/
inductive HVACMode where
  | heatCool
  | hvacOff
deriving DecidableEq

/-- String value of the hvac mode enum members used by the platform. -/
def HVACMode.toPy : HVACMode → PyVal
  | .heatCool => .pstr "heat_cool"
  | .hvacOff => .pstr "off"

/-- Feature bit for target temperature support (ClimateEntityFeature). -/
def TARGET_TEMPERATURE_FLAG : ℕ := 1

/-- Feature bit for preset mode support (ClimateEntityFeature). -/
def PRESET_MODE_FLAG : ℕ := 16

/-- Feature bit for turn off support (ClimateEntityFeature). -/
def TURN_OFF_FLAG : ℕ := 128

/-- Feature bit for turn on support (ClimateEntityFeature). -/
def TURN_ON_FLAG : ℕ := 256

/-- Command payload stored per preset name in the reverse preset map:
the workMode and modeValue entries of the dict built at lines 132-135 and
144-147 of climate.py. -/
structure Payload where
  workMode : PyVal
  modeValue : PyVal
deriving DecidableEq

/-- Dict value of a stored preset payload as the source builds it. -/
def Payload.toPy (p : Payload) : PyVal :=
  .pdict [("workMode", p.workMode), ("modeValue", p.modeValue)]

/-- The mutable attribute state of a GoveeLifeClimate entity that the
platform specific init builds: the ModeModel of the spec. -/
structure ModeState where
  supported_features : ℕ
  hvac_modes : List HVACMode
  hvac_modes_mapping : List (PyVal × HVACMode)
  hvac_modes_mapping_set : List (HVACMode × PyVal)
  preset_modes : List PyVal
  preset_modes_mapping : List (PyVal × PyVal)
  preset_modes_mapping_set : List (PyVal × Payload)
  max_temp : Option PyVal
  min_temp : Option PyVal
  target_temperature_step : Option PyVal
  temperature_unit_attr : Option UnitOfTemperature
deriving DecidableEq

/-- Class-attribute defaults of GoveeLifeClimate (climate.py lines 65-70):
empty mode containers.  The supported feature bitset starts at zero, the
default of the host ClimateEntity base class. -/
def initState : ModeState :=
  { supported_features := 0
    hvac_modes := []
    hvac_modes_mapping := []
    hvac_modes_mapping_set := []
    preset_modes := []
    preset_modes_mapping := []
    preset_modes_mapping_set := []
    max_temp := none
    min_temp := none
    target_temperature_step := none
    temperature_unit_attr := none }

/-- One iteration of the option loop of the on_off branch
(climate.py lines 81-93). -/
def processOnOffOption (st : ModeState) (opt : PyVal) : Except PyErr ModeState := do
  let name ← opt.getItem "name"
  if pyEq name (.pstr "on") then do
    let value ← opt.getItem "value"
    pure { st with
      supported_features := st.supported_features ||| TURN_ON_FLAG
      hvac_modes := st.hvac_modes ++ [HVACMode.heatCool]
      hvac_modes_mapping := dinsert st.hvac_modes_mapping value HVACMode.heatCool
      hvac_modes_mapping_set := dinsert st.hvac_modes_mapping_set HVACMode.heatCool value }
  else if pyEq name (.pstr "off") then do
    let value ← opt.getItem "value"
    pure { st with
      supported_features := st.supported_features ||| TURN_OFF_FLAG
      hvac_modes := st.hvac_modes ++ [HVACMode.hvacOff]
      hvac_modes_mapping := dinsert st.hvac_modes_mapping value HVACMode.hvacOff
      hvac_modes_mapping_set := dinsert st.hvac_modes_mapping_set HVACMode.hvacOff value }
  else
    pure st

/-- The option loop of the on_off branch. -/
def processOnOffOptions : ModeState → List PyVal → Except PyErr ModeState
  | st, [] => pure st
  | st, opt :: rest => do
      let st2 ← processOnOffOption st opt
      processOnOffOptions st2 rest

/-- One iteration of the field loop of the temperature_setting branch
(climate.py lines 96-104).  Field names other than temperature, unit and
autoStop fall through the elif chain with no effect. -/
def processTempField (st : ModeState) (field : PyVal) : Except PyErr ModeState := do
  let fieldName ← field.getItem "fieldName"
  if pyEq fieldName (.pstr "temperature") then do
    let range1 ← field.getItem "range"
    let mx ← range1.getItem "max"
    let range2 ← field.getItem "range"
    let mn ← range2.getItem "min"
    let range3 ← field.getItem "range"
    let pr ← range3.getItem "precision"
    pure { st with max_temp := some mx, min_temp := some mn,
                   target_temperature_step := some pr }
  else if pyEq fieldName (.pstr "unit") then do
    let dv ← field.getItem "defaultValue"
    let up ← pyUpper dv
    match up with
    | .pstr s => do
        let u ← unitOfTemperatureItem s
        pure { st with temperature_unit_attr := some u }
    | _ => pure st
  else if pyEq fieldName (.pstr "autoStop") then
    pure st
  else
    pure st

/-- The field loop of the temperature_setting branch. -/
def processTempFields : ModeState → List PyVal → Except PyErr ModeState
  | st, [] => pure st
  | st, f :: rest => do
      let st2 ← processTempField st f
      processTempFields st2 rest

/-- The generator next((f for f in fields if f[fieldName] == fname), None)
used at climate.py lines 111-112: the scan is lazy, so a malformed field
after the first match is never touched. -/
def findField : List PyVal → String → Except PyErr (Option PyVal)
  | [], _ => pure none
  | f :: rest, fname => do
      let n ← f.getItem "fieldName"
      if pyEq n (.pstr fname) then pure (some f) else findField rest fname

/-- One iteration of the level loop of the gearMode sub-branch
(climate.py lines 126-135). -/
def processGearLevel (st : ModeState) (value : PyVal) (level : PyVal) :
    Except PyErr ModeState := do
  let levelName ← level.getItem "name"
  let levelValue ← level.getItem "value"
  let modeName : PyVal := .pstr ("gearMode-" ++ pyStr levelName)
  pure { st with
    preset_modes := st.preset_modes ++ [modeName]
    preset_modes_mapping := dinsert st.preset_modes_mapping modeName value
    preset_modes_mapping_set :=
      dinsert st.preset_modes_mapping_set modeName ⟨value, levelValue⟩ }

/-- The level loop of the gearMode sub-branch. -/
def processGearLevels : ModeState → PyVal → List PyVal → Except PyErr ModeState
  | st, _, [] => pure st
  | st, value, level :: rest => do
      let st2 ← processGearLevel st value level
      processGearLevels st2 value rest

/-- One iteration of the sub loop of the gearMode branch
(climate.py lines 123-135): subs not named gearMode are skipped. -/
def processGearSub (st : ModeState) (value : PyVal) (sub : PyVal) :
    Except PyErr ModeState := do
  let n ← sub.pyGet "name" .pnone
  if !(pyEq n (.pstr "gearMode")) then
    pure st
  else do
    let optsV ← sub.pyGet "options" (.plist [])
    let levels ← pyIter optsV
    processGearLevels st value levels

/-- The sub loop of the gearMode branch. -/
def processGearSubs : ModeState → PyVal → List PyVal → Except PyErr ModeState
  | st, _, [] => pure st
  | st, value, sub :: rest => do
      let st2 ← processGearSub st value sub
      processGearSubs st2 value rest

/-- The default-value scan of the flat preset branch (climate.py lines
138-141): the last option of the modeValue field whose name equals the
work mode name supplies the default, starting from the int 0. -/
def findDefaultVal (name : PyVal) : List PyVal → PyVal → Except PyErr PyVal
  | [], acc => pure acc
  | f :: rest, acc => do
      let n ← f.pyGet "name" .pnone
      if pyEq n name then do
        let d ← f.pyGet "defaultValue" (.pint 0)
        findDefaultVal name rest d
      else findDefaultVal name rest acc

/-- One iteration of the work option loop of the work_mode branch
(climate.py lines 117-147). -/
def processWorkOption (st : ModeState) (modeField : PyVal) (workOption : PyVal) :
    Except PyErr ModeState := do
  let name ← workOption.getItem "name"
  let value ← workOption.getItem "value"
  if pyEq name (.pstr "gearMode") then do
    let subsV ← modeField.pyGet "options" (.plist [])
    let subs ← pyIter subsV
    processGearSubs st value subs
  else do
    let optsV ← modeField.pyGet "options" (.plist [])
    let opts ← pyIter optsV
    let defaultVal ← findDefaultVal name opts (.pint 0)
    pure { st with
      preset_modes := st.preset_modes ++ [name]
      preset_modes_mapping := dinsert st.preset_modes_mapping name value
      preset_modes_mapping_set :=
        dinsert st.preset_modes_mapping_set name ⟨value, defaultVal⟩ }

/-- The work option loop of the work_mode branch. -/
def processWorkOptions : ModeState → PyVal → List PyVal → Except PyErr ModeState
  | st, _, [] => pure st
  | st, modeField, opt :: rest => do
      let st2 ← processWorkOption st modeField opt
      processWorkOptions st2 modeField rest

/-- The work_mode branch (climate.py lines 105-149): adds the preset
feature, resets the three preset containers, locates the workMode and
modeValue fields and processes the work options; a missing workMode or
modeValue field is logged and the branch ends with the reset containers. -/
def processWorkModeCap (st : ModeState) (cap : PyVal) : Except PyErr ModeState := do
  let st := { st with
    supported_features := st.supported_features ||| PRESET_MODE_FLAG
    preset_modes := []
    preset_modes_mapping := []
    preset_modes_mapping_set := [] }
  let params ← cap.getItem "parameters"
  let fieldsV ← params.getItem "fields"
  let fields ← pyIter fieldsV
  let workField ← findField fields "workMode"
  let modeField ← findField fields "modeValue"
  match workField, modeField with
  | some _, some mf => do
      let optsV ← (workField.getD .pnone).pyGet "options" (.plist [])
      let opts ← pyIter optsV
      processWorkOptions st mf opts
  | _, _ => pure st

/-- Dispatch on one capability descriptor (climate.py lines 79-153).
The temperature_setting branch requires the instance entry to be
targetTemperature or sliderTemperature, the property branch requires the
instance entry to be sensorTemperature (and then does nothing); every
other descriptor is logged at debug level and skipped. -/
def processCap (st : ModeState) (cap : PyVal) : Except PyErr ModeState := do
  let t ← cap.getItem "type"
  if pyEq t (.pstr "devices.capabilities.on_off") then do
    let params ← cap.getItem "parameters"
    let optsV ← params.getItem "options"
    let opts ← pyIter optsV
    processOnOffOptions st opts
  else if pyEq t (.pstr "devices.capabilities.temperature_setting") then do
    let inst1 ← cap.getItem "instance"
    if pyEq inst1 (.pstr "targetTemperature") || pyEq inst1 (.pstr "sliderTemperature") then do
      let params ← cap.getItem "parameters"
      let fieldsV ← params.getItem "fields"
      let fields ← pyIter fieldsV
      processTempFields
        { st with supported_features := st.supported_features ||| TARGET_TEMPERATURE_FLAG }
        fields
    else
      pure st
  else if pyEq t (.pstr "devices.capabilities.work_mode") then
    processWorkModeCap st cap
  else if pyEq t (.pstr "devices.capabilities.property") then do
    let _inst ← cap.getItem "instance"
    pure st
  else
    pure st

/-- The capability loop of the platform specific init
(climate.py lines 79-153). -/
def processCapabilities : ModeState → List PyVal → Except PyErr ModeState
  | st, [] => pure st
  | st, cap :: rest => do
      let st2 ← processCap st cap
      processCapabilities st2 rest

/-- Full platform specific init (climate.py lines 73-153): reads the
capabilities entry of the device config (default empty list) and runs the
capability loop. -/
def initPlatformSpecific (st : ModeState) (deviceCfg : PyVal) :
    Except PyErr ModeState := do
  let capsV ← deviceCfg.pyGet "capabilities" (.plist [])
  let caps ← pyIter capsV
  processCapabilities st caps

/-- A cached state snapshot, keyed by capability type and instance.
Modelled from the spec: GoveeAPI_GetCachedStateValue (utils.py, outside
src/) is a synchronous read of the last known state returning the cached
value or None. -/
def Snapshot : Type := List ((String × String) × PyVal)

/-- Read of the cached state for one capability type and instance; an
absent entry reads as None.  Modelled from the spec (see Snapshot). -/
def getCachedStateValue (snap : Snapshot) (capType inst : String) : PyVal :=
  (dlookup (K := String × String) snap (capType, inst)).getD .pnone

/-- The hvac_mode read property (climate.py lines 155-162): translate the
powerSwitch reading through the forward map, with the unknown sentinel
(and a logged warning) for unmapped values.  The dict get method never
raises, so this property is total. -/
def hvac_mode (st : ModeState) (snap : Snapshot) : PyVal :=
  let value := getCachedStateValue snap "devices.capabilities.on_off" "powerSwitch"
  match dlookup st.hvac_modes_mapping value with
  | some m => m.toPy
  | none => .pstr "unknown"

/-- The linear scan of the preset_mode read property (climate.py lines
192-194): first entry of the reverse preset map whose workMode and
modeValue both equal the snapshot values, by Python equality. -/
def scanPresets : List (PyVal × Payload) → PyVal → PyVal → PyVal
  | [], _, _ => .pnone
  | (presetName, preset) :: rest, workMode, modeValue =>
      if pyEq preset.workMode workMode && pyEq preset.modeValue modeValue then
        presetName
      else scanPresets rest workMode modeValue

/-- The preset_mode read property (climate.py lines 182-196): a falsy
reading returns None; otherwise the workMode entry (default None) and the
modeValue entry (default 0) are looked up and scanned for. -/
def preset_mode (st : ModeState) (snap : Snapshot) : Except PyErr PyVal := do
  let value := getCachedStateValue snap "devices.capabilities.work_mode" "workMode"
  if !value.truthy then
    pure .pnone
  else do
    let workMode ← value.pyGet "workMode" .pnone
    let modeValue ← value.pyGet "modeValue" (.pint 0)
    pure (scanPresets st.preset_modes_mapping_set workMode modeValue)

/-- The temperature_unit read property (climate.py lines 213-224): prefer
the unit embedded in the targetTemperature reading, then the one in the
sliderTemperature reading (default member name CELSIUS in both, applied
case-insensitively), and Celsius when both readings are None. -/
def temperature_unit (snap : Snapshot) : Except PyErr UnitOfTemperature := do
  let value := getCachedStateValue snap "devices.capabilities.temperature_setting"
    "targetTemperature"
  if value ≠ .pnone then do
    let u ← value.pyGet "unit" (.pstr "CELSIUS")
    let up ← pyUpper u
    match up with
    | .pstr s => unitOfTemperatureItem s
    | _ => Except.error PyErr.typeError
  else do
    let value2 := getCachedStateValue snap "devices.capabilities.temperature_setting"
      "sliderTemperature"
    if value2 ≠ .pnone then do
      let u ← value2.pyGet "unit" (.pstr "CELSIUS")
      let up ← pyUpper u
      match up with
      | .pstr s => unitOfTemperatureItem s
      | _ => Except.error PyErr.typeError
    else
      pure UnitOfTemperature.celsius

/-- The target_temperature read property (climate.py lines 226-243): a
truthy resolved preset present in the reverse preset map whose stored
modeValue is neither None nor 0 wins; otherwise the targetTemperature
entry of the sliderTemperature reading; None when neither yields a value. -/
def target_temperature (st : ModeState) (snap : Snapshot) : Except PyErr PyVal := do
  let presetMode ← preset_mode st snap
  let fromPreset : Option PyVal :=
    if presetMode.truthy && (dlookup st.preset_modes_mapping_set presetMode).isSome then
      match dlookup st.preset_modes_mapping_set presetMode with
      | some payload =>
          if payload.modeValue ≠ .pnone && !(pyEq payload.modeValue (.pint 0)) then
            some payload.modeValue
          else none
      | none => none
    else none
  match fromPreset with
  | some mv => do
      let q ← pyFloat mv
      pure (.pfloat q)
  | none => do
      let value := getCachedStateValue snap "devices.capabilities.temperature_setting"
        "sliderTemperature"
      if value = .pnone then
        pure .pnone
      else do
        let temperature ← value.pyGet "targetTemperature" .pnone
        if temperature = .pnone then
          pure .pnone
        else do
          let q ← pyFloat temperature
          pure (.pfloat q)

/-- The current_temperature read property (climate.py lines 260-268): a
None or empty-string sensorTemperature reading returns None; when the
resolved display unit is Celsius the raw value is converted by
(v - 32) * 5 / 9, otherwise it is passed through unconverted. -/
def current_temperature (snap : Snapshot) : Except PyErr PyVal := do
  let value := getCachedStateValue snap "devices.capabilities.property" "sensorTemperature"
  if value = .pnone || pyEq value (.pstr "") then
    pure .pnone
  else do
    let unit ← temperature_unit snap
    if unit = UnitOfTemperature.celsius then do
      let v ← pyFloat value
      pure (.pfloat ((v - 32) * 5 / 9))
    else do
      let v ← pyFloat value
      pure (.pfloat v)

/-- The command built by async_set_temperature (climate.py lines 245-258):
the unit is read with a get call (default the Celsius string) from the
targetTemperature reading, which raises attributeError when that reading
is None. -/
def async_set_temperature (snap : Snapshot) (temperature : PyVal) :
    Except PyErr PyVal := do
  let value := getCachedStateValue snap "devices.capabilities.temperature_setting"
    "targetTemperature"
  let unit ← value.pyGet "unit" (.pstr "Celsius")
  pure (.pdict
    [("type", .pstr "devices.capabilities.temperature_setting"),
     ("instance", .pstr "targetTemperature"),
     ("value", .pdict [("temperature", temperature), ("unit", unit)])])

/-- Device types accepted by the climate platform (climate.py lines 28-31). -/
def PLATFORM_DEVICE_TYPES : List PyVal :=
  [.pstr "devices.types.heater", .pstr "devices.types.kettle"]

/-- One iteration body of the device loop of async_setup_entry
(climate.py lines 45-56): the type filter, then entity construction.
Modelled from the spec: entity construction (entities.py, outside src/)
invokes the platform specific init once on the device config, and the
coordinator store lookup succeeds for configured devices. -/
def setupDevice (deviceCfg : PyVal) : Except PyErr (Option ModeState) := do
  let t ← deviceCfg.pyGet "type" .pnone
  if !pyMem t PLATFORM_DEVICE_TYPES then
    pure none
  else do
    let _device ← deviceCfg.pyGet "device" .pnone
    let st ← initPlatformSpecific initState deviceCfg
    pure (some st)

/-- The device loop of async_setup_entry (climate.py lines 45-59): any
exception while setting up one device is logged and the whole setup
returns at once, so nothing at all is added; otherwise the accumulated
entities are added at the end. -/
def asyncSetupEntry : List PyVal → List ModeState → List ModeState
  | [], entities => entities
  | cfg :: rest, entities =>
      match setupDevice cfg with
      | Except.ok (some e) => asyncSetupEntry rest (entities ++ [e])
      | Except.ok none => asyncSetupEntry rest entities
      | Except.error _ => []


/-- Unfolding of dkeys on the empty list. -/
theorem dkeys_nil {K V : Type} : dkeys ([] : List (K × V)) = [] := rfl

/-- Unfolding of dkeys on a cons. -/
theorem dkeys_cons {K V : Type} (e : K × V) (d : List (K × V)) :
    dkeys (e :: d) = e.1 :: dkeys d := rfl

section PyDictLemmas

variable {K V : Type} [DecidableEq K]

/-- Lookup after an update: the updated key reads the new value, every
other key is unaffected. -/
theorem dlookup_dinsert (d : List (K × V)) (k j : K) (v : V) :
    dlookup (dinsert d k v) j = if j = k then some v else dlookup d j := by
  induction d with
  | nil =>
      simp only [dinsert, dlookup]
      by_cases h : j = k
      · simp [h]
      · rw [if_neg (fun hh => h hh.symm), if_neg h]
  | cons e rest ih =>
      by_cases he : e.1 = k
      · simp only [dinsert, if_pos he, dlookup]
        by_cases hj : j = k
        · rw [if_pos (by rw [hj]), if_pos hj]
        · rw [if_neg (fun hh => hj hh.symm), if_neg hj,
            if_neg (fun hh => hj (by rw [← hh, he]))]
      · simp only [dinsert, if_neg he, dlookup]
        by_cases hej : e.1 = j
        · rw [if_pos hej, if_pos hej, if_neg (fun hh => he (by rw [hej, hh]))]
        · rw [if_neg hej, if_neg hej, ih]

/-- Key membership after an update. -/
theorem mem_dkeys_dinsert (d : List (K × V)) (k j : K) (v : V) :
    j ∈ dkeys (dinsert d k v) ↔ j = k ∨ j ∈ dkeys d := by
  induction d with
  | nil => simp [dinsert, dkeys]
  | cons e rest ih =>
      by_cases he : e.1 = k
      · simp only [dinsert, if_pos he, dkeys_cons, List.mem_cons]
        rw [← he]
        tauto
      · simp only [dinsert, if_neg he, dkeys_cons, List.mem_cons]
        rw [ih]
        tauto

/-- Updating a key already present leaves the key list unchanged. -/
theorem dkeys_dinsert_of_mem (d : List (K × V)) (k : K) (v : V)
    (h : k ∈ dkeys d) : dkeys (dinsert d k v) = dkeys d := by
  induction d with
  | nil => simp [dkeys] at h
  | cons e rest ih =>
      by_cases he : e.1 = k
      · have hh : dinsert (e :: rest) k v = (k, v) :: rest := by
          simp [dinsert, he]
        rw [hh, dkeys_cons, dkeys_cons, he]
      · rw [dkeys_cons, List.mem_cons] at h
        rcases h with h | h
        · exact absurd h.symm he
        · simp only [dinsert, if_neg he, dkeys_cons, ih h]

/-- Updates preserve distinctness of keys. -/
theorem nodup_dkeys_dinsert (d : List (K × V)) (k : K) (v : V)
    (h : (dkeys d).Nodup) : (dkeys (dinsert d k v)).Nodup := by
  induction d with
  | nil => simp [dinsert, dkeys]
  | cons e rest ih =>
      rw [dkeys_cons, List.nodup_cons] at h
      by_cases he : e.1 = k
      · simp only [dinsert, if_pos he, dkeys_cons, List.nodup_cons]
        exact ⟨by rw [← he]; exact h.1, h.2⟩
      · simp only [dinsert, if_neg he, dkeys_cons, List.nodup_cons]
        refine ⟨?_, ih h.2⟩
        intro hmem
        rcases (mem_dkeys_dinsert rest k e.1 v).mp hmem with h1 | h1
        · exact he h1
        · exact h.1 h1

/-- A lookup succeeds exactly on present keys. -/
theorem dlookup_isSome (d : List (K × V)) (j : K) :
    (dlookup d j).isSome ↔ j ∈ dkeys d := by
  induction d with
  | nil => simp [dlookup, dkeys]
  | cons e rest ih =>
      rw [dkeys_cons, List.mem_cons]
      simp only [dlookup]
      by_cases he : e.1 = j
      · simp [he]
      · rw [if_neg he, ih]
        constructor
        · exact Or.inr
        · rintro (h | h)
          · exact absurd h.symm he
          · exact h

/-- A successful lookup result is an entry of the list. -/
theorem dlookup_some_mem (d : List (K × V)) (j : K) (x : V)
    (h : dlookup d j = some x) : (j, x) ∈ d := by
  induction d with
  | nil => simp [dlookup] at h
  | cons e rest ih =>
      simp only [dlookup] at h
      by_cases he : e.1 = j
      · rw [if_pos he] at h
        have hex : e = (j, x) := by
          cases e with
          | mk a b =>
            simp only at he
            simp only [Option.some.injEq] at h
            rw [he, h]
        rw [hex]
        exact List.mem_cons_self _ _
      · rw [if_neg he] at h
        exact List.mem_cons_of_mem _ (ih h)

/-- Association lists with distinct keys are determined by their key list
and their lookup function. -/
theorem dext : ∀ d d2 : List (K × V), dkeys d = dkeys d2 →
    (∀ j, dlookup d j = dlookup d2 j) → (dkeys d).Nodup → d = d2
  | [], [], _, _, _ => rfl
  | [], _ :: _, hk, _, _ => by rw [dkeys_nil, dkeys_cons] at hk; exact absurd hk (by simp)
  | _ :: _, [], hk, _, _ => by rw [dkeys_nil, dkeys_cons] at hk; exact absurd hk (by simp)
  | e :: rest, f :: rest2, hk, hl, hn => by
      rw [dkeys_cons, dkeys_cons, List.cons.injEq] at hk
      rw [dkeys_cons, List.nodup_cons] at hn
      have hef : e.1 = f.1 := hk.1
      have hkr : dkeys rest = dkeys rest2 := hk.2
      have h1 : dlookup (e :: rest) e.1 = some e.2 := by simp [dlookup]
      have h2 : dlookup (f :: rest2) e.1 = some f.2 := by simp [dlookup, hef.symm]
      have hv : e.2 = f.2 := by
        have h12 := hl e.1
        rw [h1, h2] at h12
        exact (Option.some.injEq _ _).mp h12
      have hnot1 : e.1 ∉ dkeys rest := hn.1
      have hnot2 : e.1 ∉ dkeys rest2 := by rw [← hkr]; exact hn.1
      have hrest : rest = rest2 := by
        apply dext rest rest2 hkr _ hn.2
        intro j
        by_cases hj : j = e.1
        · have e1 : dlookup rest j = none := by
            cases hcase : dlookup rest j with
            | none => rfl
            | some x =>
                refine absurd ?_ hnot1
                rw [← hj]
                exact (dlookup_isSome rest j).mp (by rw [hcase]; rfl)
          have e2 : dlookup rest2 j = none := by
            cases hcase : dlookup rest2 j with
            | none => rfl
            | some x =>
                refine absurd ?_ hnot2
                rw [← hj]
                exact (dlookup_isSome rest2 j).mp (by rw [hcase]; rfl)
          rw [e1, e2]
        · have h12 := hl j
          simp only [dlookup] at h12
          rw [if_neg (fun hh => hj hh.symm), if_neg (fun hh => hj (by rw [← hh, hef]))]
            at h12
          exact h12
      calc e :: rest = (e.1, e.2) :: rest := by rw [Prod.mk.eta]
        _ = (f.1, f.2) :: rest2 := by rw [hef, hv, hrest]
        _ = f :: rest2 := by rw [Prod.mk.eta]

/-- Unfolding of applyInserts on an empty sequence. -/
theorem applyInserts_nil (d : List (K × V)) : applyInserts d [] = d := rfl

/-- Unfolding of applyInserts on a cons. -/
theorem applyInserts_cons (d : List (K × V)) (e : K × V) (S : List (K × V)) :
    applyInserts d (e :: S) = applyInserts (dinsert d e.1 e.2) S := rfl

/-- The update sequence splits over list append. -/
theorem applyInserts_append (d : List (K × V)) (S T : List (K × V)) :
    applyInserts d (S ++ T) = applyInserts (applyInserts d S) T := by
  simp [applyInserts, List.foldl_append]

/-- Keys present before an update sequence stay present. -/
theorem mem_dkeys_applyInserts_left (d : List (K × V)) (S : List (K × V)) (j : K)
    (h : j ∈ dkeys d) : j ∈ dkeys (applyInserts d S) := by
  induction S generalizing d with
  | nil => exact h
  | cons e S ih =>
      rw [applyInserts_cons]
      exact ih _ ((mem_dkeys_dinsert d e.1 j e.2).mpr (Or.inr h))

/-- Every key inserted by the sequence is present afterwards. -/
theorem mem_dkeys_applyInserts_right (d : List (K × V)) (S : List (K × V)) (j : K)
    (h : j ∈ S.map Prod.fst) : j ∈ dkeys (applyInserts d S) := by
  induction S generalizing d with
  | nil => simp at h
  | cons e S ih =>
      rw [applyInserts_cons]
      rw [List.map_cons] at h
      rcases List.mem_cons.mp h with h1 | h1
      · exact mem_dkeys_applyInserts_left _ _ _
          ((mem_dkeys_dinsert d e.1 j e.2).mpr (Or.inl h1))
      · exact ih _ h1

/-- An update sequence whose keys are all present leaves the key list
unchanged. -/
theorem dkeys_applyInserts_id (d : List (K × V)) (S : List (K × V))
    (h : ∀ k ∈ S.map Prod.fst, k ∈ dkeys d) : dkeys (applyInserts d S) = dkeys d := by
  induction S generalizing d with
  | nil => rfl
  | cons e S ih =>
      rw [applyInserts_cons]
      have he : e.1 ∈ dkeys d := h e.1 (by rw [List.map_cons]; exact List.mem_cons_self _ _)
      rw [ih _ ?_, dkeys_dinsert_of_mem d e.1 e.2 he]
      intro k hk
      rw [mem_dkeys_dinsert]
      exact Or.inr (h k (by rw [List.map_cons]; exact List.mem_cons_of_mem _ hk))

/-- Lookup congruence under an update sequence. -/
theorem dlookup_applyInserts_congr (d d2 : List (K × V)) (S : List (K × V)) (j : K)
    (h : dlookup d j = dlookup d2 j) :
    dlookup (applyInserts d S) j = dlookup (applyInserts d2 S) j := by
  induction S generalizing d d2 with
  | nil => exact h
  | cons e S ih =>
      rw [applyInserts_cons, applyInserts_cons]
      apply ih
      rw [dlookup_dinsert, dlookup_dinsert, h]

/-- Keys not touched by the sequence keep their lookup. -/
theorem dlookup_applyInserts_not_mem (d : List (K × V)) (S : List (K × V)) (j : K)
    (h : j ∉ S.map Prod.fst) : dlookup (applyInserts d S) j = dlookup d j := by
  induction S generalizing d with
  | nil => rfl
  | cons e S ih =>
      rw [List.map_cons] at h
      have h1 : j ∉ S.map Prod.fst := fun hh => h (List.mem_cons_of_mem _ hh)
      have hne : j ≠ e.1 := fun hh => h (by rw [hh]; exact List.mem_cons_self _ _)
      rw [applyInserts_cons, ih _ h1, dlookup_dinsert, if_neg hne]

/-- Keys touched by the sequence end with a lookup independent of the
starting dictionary. -/
theorem dlookup_applyInserts_mem_indep (S : List (K × V)) (j : K)
    (h : j ∈ S.map Prod.fst) (d d2 : List (K × V)) :
    dlookup (applyInserts d S) j = dlookup (applyInserts d2 S) j := by
  induction S generalizing d d2 with
  | nil => simp at h
  | cons e S ih =>
      rw [applyInserts_cons, applyInserts_cons]
      by_cases hS : j ∈ S.map Prod.fst
      · exact ih hS _ _
      · rw [List.map_cons] at h
        have hje : j = e.1 := by
          rcases List.mem_cons.mp h with h1 | h1
          · exact h1
          · exact absurd h1 hS
        rw [dlookup_applyInserts_not_mem _ _ _ hS, dlookup_applyInserts_not_mem _ _ _ hS,
          dlookup_dinsert, dlookup_dinsert, if_pos hje, if_pos hje]

/-- Update sequences preserve distinctness of keys. -/
theorem nodup_dkeys_applyInserts (d : List (K × V)) (S : List (K × V))
    (h : (dkeys d).Nodup) : (dkeys (applyInserts d S)).Nodup := by
  induction S generalizing d with
  | nil => exact h
  | cons e S ih =>
      rw [applyInserts_cons]
      exact ih _ (nodup_dkeys_dinsert d e.1 e.2 h)

/-- Applying the same update sequence twice is the same as applying it
once, over any starting dictionary with distinct keys. -/
theorem applyInserts_idem (d : List (K × V)) (S : List (K × V))
    (h : (dkeys d).Nodup) : applyInserts (applyInserts d S) S = applyInserts d S := by
  apply dext
  · apply dkeys_applyInserts_id
    intro k hk
    exact mem_dkeys_applyInserts_right d S k hk
  · intro j
    by_cases hj : j ∈ S.map Prod.fst
    · rw [dlookup_applyInserts_mem_indep S j hj (applyInserts d S) d]
    · rw [dlookup_applyInserts_not_mem _ _ _ hj]
  · exact nodup_dkeys_applyInserts _ _ (nodup_dkeys_applyInserts d S h)

/-- Every value readable after an update sequence comes from the sequence
or from the starting dictionary. -/
theorem dlookup_applyInserts_some (d : List (K × V)) (S : List (K × V)) (j : K) (x : V)
    (h : dlookup (applyInserts d S) j = some x) : (j, x) ∈ S ∨ dlookup d j = some x := by
  induction S generalizing d with
  | nil => exact Or.inr h
  | cons e S ih =>
      rw [applyInserts_cons] at h
      rcases ih _ h with h1 | h1
      · exact Or.inl (List.mem_cons_of_mem _ h1)
      · rw [dlookup_dinsert] at h1
        by_cases hj : j = e.1
        · rw [if_pos hj] at h1
          left
          have hje : (j, x) = e := by
            cases e with
            | mk a b =>
              simp only at hj h1 ⊢
              simp only [Option.some.injEq] at h1
              rw [hj, h1]
          rw [hje]
          exact List.mem_cons_self _ _
        · rw [if_neg hj] at h1
          exact Or.inr h1

end PyDictLemmas

/-- Python equality against a str on the right holds only for that str. -/
theorem pyEq_pstr_right (v : PyVal) (s : String) :
    pyEq v (.pstr s) = true ↔ v = .pstr s := by
  cases v <;> simp [pyEq, PyVal.toNum?]

/-- Python equality between ints is int equality. -/
theorem pyEq_pint (a b : Int) : pyEq (.pint a) (.pint b) = true ↔ a = b := by
  simp [pyEq, PyVal.toNum?]

/-- A snapshot holding exactly one work_mode workMode reading. -/
def workSnap (v : PyVal) : Snapshot :=
  [(("devices.capabilities.work_mode", "workMode"), v)]

/-- The preset scan agrees with the first find on the match predicate the
source uses. -/
theorem scanPresets_eq_find (d : List (PyVal × Payload)) (w m : PyVal) :
    scanPresets d w m =
      ((d.find? (fun e => pyEq e.2.workMode w && pyEq e.2.modeValue m)).map
        Prod.fst).getD .pnone := by
  induction d with
  | nil => rfl
  | cons e rest ih =>
      obtain ⟨name, preset⟩ := e
      simp only [scanPresets, List.find?]
      by_cases h : (pyEq preset.workMode w && pyEq preset.modeValue m) = true
      · simp [h]
      · simp [h, ih]

/-- Evaluation of the preset_mode property on a snapshot whose work_mode
reading is a nonempty dict. -/
theorem preset_mode_dict (st : ModeState) (es : List (String × PyVal)) (h : es ≠ []) :
    preset_mode st (workSnap (.pdict es)) =
      .ok (scanPresets st.preset_modes_mapping_set
        ((dlookup es "workMode").getD .pnone)
        ((dlookup es "modeValue").getD (.pint 0))) := by
  have htr : (PyVal.pdict es).truthy = true := by
    simp [PyVal.truthy, List.isEmpty_iff, h]
  simp [preset_mode, workSnap, getCachedStateValue, dlookup, htr, PyVal.pyGet,
    Except.bind, bind, pure, Except.pure]

/-- Whether no entry before the first entry keyed p shares the stored
payload pair of pl, under the Python equality the scan uses. -/
def noEarlierSharer : List (PyVal × Payload) → PyVal → Payload → Bool
  | [], _, _ => true
  | (name, preset) :: rest, p, pl =>
      if name = p then true
      else if pyEq preset.workMode pl.workMode && pyEq preset.modeValue pl.modeValue then
        false
      else noEarlierSharer rest p pl

/-- When no earlier entry shares the payload pair, the scan finds p itself. -/
theorem scanPresets_no_earlier (d : List (PyVal × Payload)) (p : PyVal) (pl : Payload)
    (hd : dlookup d p = some pl) (hne : noEarlierSharer d p pl = true) :
    scanPresets d pl.workMode pl.modeValue = p := by
  induction d with
  | nil => simp [dlookup] at hd
  | cons e rest ih =>
      obtain ⟨name, preset⟩ := e
      by_cases hnp : name = p
      · have hpl : preset = pl := by
          simp only [dlookup, if_pos hnp] at hd
          exact (Option.some.injEq _ _).mp hd
        simp only [scanPresets, hpl, pyEq_refl, Bool.and_self, if_pos]
        exact hnp
      · simp only [noEarlierSharer, if_neg hnp] at hne
        simp only [dlookup, if_neg hnp] at hd
        by_cases hmatch : (pyEq preset.workMode pl.workMode &&
            pyEq preset.modeValue pl.modeValue) = true
        · rw [if_pos hmatch] at hne
          exact absurd hne (by simp)
        · rw [if_neg hmatch] at hne
          simp only [scanPresets, if_neg hmatch]
          exact ih hd hne

/-- Claim C5: for every preset name p of the model, reading preset_mode
against a snapshot whose work_mode reading is the stored payload of p
returns the first registered preset sharing that exact workMode and
modeValue pair, and returns p itself when no earlier registered preset
shares the pair. -/
theorem claim_C5_preset_roundtrip (st : ModeState) (p : PyVal) (pl : Payload)
    (hp : dlookup st.preset_modes_mapping_set p = some pl) :
    (∃ e, List.find?
        (fun e => pyEq e.2.workMode pl.workMode && pyEq e.2.modeValue pl.modeValue)
        st.preset_modes_mapping_set = some e ∧
      preset_mode st (workSnap pl.toPy) = .ok e.1) ∧
    (noEarlierSharer st.preset_modes_mapping_set p pl = true →
      preset_mode st (workSnap pl.toPy) = .ok p) := by
  have heval : preset_mode st (workSnap pl.toPy) =
      .ok (scanPresets st.preset_modes_mapping_set pl.workMode pl.modeValue) := by
    rw [show pl.toPy = .pdict [("workMode", pl.workMode), ("modeValue", pl.modeValue)]
      from rfl]
    rw [preset_mode_dict st _ (by simp)]
    simp [dlookup]
  constructor
  · have hmem : (p, pl) ∈ st.preset_modes_mapping_set := dlookup_some_mem _ _ _ hp
    have hsome : (List.find?
        (fun e => pyEq e.2.workMode pl.workMode && pyEq e.2.modeValue pl.modeValue)
        st.preset_modes_mapping_set).isSome := by
      rw [List.find?_isSome]
      exact ⟨(p, pl), hmem, by simp [pyEq_refl]⟩
    obtain ⟨e, he⟩ := Option.isSome_iff_exists.mp hsome
    refine ⟨e, he, ?_⟩
    rw [heval, scanPresets_eq_find, he]
    rfl
  · intro hne
    rw [heval, scanPresets_no_earlier _ _ _ hp hne]

/-- Claim C10: a work_mode snapshot dict carrying a workMode key but no
modeValue key is read with modeValue defaulted to 0, so preset_mode
returns the first registered preset stored as that workMode with level 0. -/
theorem claim_C10_missing_modeValue (st : ModeState) (es : List (String × PyVal))
    (w : PyVal) (e : PyVal × Payload)
    (hw : dlookup es "workMode" = some w)
    (hm : dlookup es "modeValue" = none)
    (hfind : List.find? (fun e => pyEq e.2.workMode w && pyEq e.2.modeValue (.pint 0))
        st.preset_modes_mapping_set = some e) :
    preset_mode st (workSnap (.pdict es)) = .ok e.1 := by
  have hne : es ≠ [] := by
    intro hh
    rw [hh] at hw
    simp [dlookup] at hw
  rw [preset_mode_dict st es hne, hw, hm]
  simp only [Option.getD_some, Option.getD_none]
  rw [scanPresets_eq_find, hfind]
  rfl

/-- Claim C7: the asymmetric unit conversion of current_temperature at the
raw sensor reading 98.6, which is 493 / 5: exactly 37 under a resolved
Celsius unit, passed through unconverted under Fahrenheit. -/
theorem claim_C7_temperature_conversion :
    current_temperature
      [(("devices.capabilities.property", "sensorTemperature"), .pfloat (493 / 5)),
       (("devices.capabilities.temperature_setting", "targetTemperature"),
         .pdict [("unit", .pstr "Celsius")])] = .ok (.pfloat 37) ∧
    current_temperature
      [(("devices.capabilities.property", "sensorTemperature"), .pfloat (493 / 5)),
       (("devices.capabilities.temperature_setting", "targetTemperature"),
         .pdict [("unit", .pstr "Fahrenheit")])] = .ok (.pfloat (493 / 5)) := by
  constructor
  · simp [current_temperature, temperature_unit, getCachedStateValue, dlookup, pyEq,
      PyVal.toNum?, PyVal.pyGet, pyUpper, strUpper, unitOfTemperatureItem, pyFloat,
      Except.bind, bind, pure, Except.pure]
    norm_num
  · simp [current_temperature, temperature_unit, getCachedStateValue, dlookup, pyEq,
      PyVal.toNum?, PyVal.pyGet, pyUpper, strUpper, unitOfTemperatureItem, pyFloat,
      Except.bind, bind, pure, Except.pure]

/-- Witness for claim C5 at a concrete model: two presets share the pair
workMode 1, modeValue 2; reading back the payload of preset B returns the
first registered sharer.  Here the no-earlier-sharer theorem is applied to
preset A, the first one, whose round trip succeeds. -/
theorem claim_C5_preset_roundtrip_witness :
    preset_mode
      { initState with preset_modes_mapping_set :=
          [(.pstr "A", ⟨.pint 1, .pint 2⟩), (.pstr "B", ⟨.pint 1, .pint 2⟩)] }
      (workSnap (Payload.toPy ⟨.pint 1, .pint 2⟩)) = .ok (.pstr "A") :=
  (claim_C5_preset_roundtrip
    { initState with preset_modes_mapping_set :=
        [(.pstr "A", ⟨.pint 1, .pint 2⟩), (.pstr "B", ⟨.pint 1, .pint 2⟩)] }
    (.pstr "A") ⟨.pint 1, .pint 2⟩ (by rfl)).2 (by rfl)

/-- Witness for claim C10 at a concrete model: the snapshot dict has only
a workMode key, and the flat preset stored with level 0 is returned. -/
theorem claim_C10_missing_modeValue_witness :
    preset_mode
      { initState with preset_modes_mapping_set := [(.pstr "Fan", ⟨.pint 3, .pint 0⟩)] }
      (workSnap (.pdict [("workMode", .pint 3)])) = .ok (.pstr "Fan") :=
  claim_C10_missing_modeValue
    { initState with preset_modes_mapping_set := [(.pstr "Fan", ⟨.pint 3, .pint 0⟩)] }
    [("workMode", .pint 3)] (.pint 3) (.pstr "Fan", ⟨.pint 3, .pint 0⟩)
    (by rfl) (by rfl) (by rfl)

/-- A snapshot holding a work_mode reading for work mode 1 at level m and
a sliderTemperature reading with target t. -/
def fanSnap (m t : Int) : Snapshot :=
  [(("devices.capabilities.work_mode", "workMode"),
      .pdict [("workMode", .pint 1), ("modeValue", .pint m)]),
   (("devices.capabilities.temperature_setting", "sliderTemperature"),
      .pdict [("targetTemperature", .pint t)])]

/-- A falsy work_mode reading makes preset_mode return None. -/
theorem preset_mode_falsy (st : ModeState) (snap : Snapshot)
    (h : (getCachedStateValue snap "devices.capabilities.work_mode" "workMode").truthy
      = false) : preset_mode st snap = .ok .pnone := by
  simp [preset_mode, h, Except.bind, bind, pure, Except.pure]

/-- Claim C6: target_temperature prefers the active preset when its stored
modeValue is nonzero, falls back to the sliderTemperature reading when the
stored modeValue is 0, and returns None when neither source yields a value. -/
theorem claim_C6_target_temperature_precedence :
    (∀ (st : ModeState) (m t : Int),
      st.preset_modes_mapping_set = [(.pstr "Fan", ⟨.pint 1, .pint m⟩)] → m ≠ 0 →
      target_temperature st (fanSnap m t) = .ok (.pfloat (m : ℚ))) ∧
    (∀ (st : ModeState) (t : Int),
      st.preset_modes_mapping_set = [(.pstr "Fan", ⟨.pint 1, .pint 0⟩)] →
      target_temperature st (fanSnap 0 t) = .ok (.pfloat (t : ℚ))) ∧
    (∀ st : ModeState, target_temperature st [] = .ok .pnone) := by
  refine ⟨?_, ?_, ?_⟩
  · intro st m t hst hm
    have hpe : pyEq (.pint m) (.pint 0) = false := by
      simp [pyEq, PyVal.toNum?]
      exact hm
    simp [target_temperature, preset_mode, getCachedStateValue, fanSnap, dlookup,
      PyVal.truthy, PyVal.pyGet, scanPresets, pyEq_refl, hst, hpe, pyFloat,
      Except.bind, bind, pure, Except.pure]
  · intro st t hst
    simp [target_temperature, preset_mode, getCachedStateValue, fanSnap, dlookup,
      PyVal.truthy, PyVal.pyGet, scanPresets, pyEq_refl, hst, pyFloat,
      Except.bind, bind, pure, Except.pure]
  · intro st
    simp [target_temperature, preset_mode, getCachedStateValue, dlookup,
      PyVal.truthy, Except.bind, bind, pure, Except.pure]

/-- Witness for claim C6 at the concrete numbers of the spec: stored
modeValue 5 beats a slider target of 20, stored modeValue 0 yields the
slider target of 20, and the empty snapshot yields None. -/
theorem claim_C6_target_temperature_precedence_witness :
    target_temperature
      { initState with preset_modes_mapping_set := [(.pstr "Fan", ⟨.pint 1, .pint 5⟩)] }
      (fanSnap 5 20) = .ok (.pfloat 5) ∧
    target_temperature
      { initState with preset_modes_mapping_set := [(.pstr "Fan", ⟨.pint 1, .pint 0⟩)] }
      (fanSnap 0 20) = .ok (.pfloat 20) ∧
    target_temperature initState [] = .ok .pnone :=
  ⟨by
    have h := claim_C6_target_temperature_precedence.1
      { initState with preset_modes_mapping_set := [(.pstr "Fan", ⟨.pint 1, .pint 5⟩)] }
      5 20 rfl (by decide)
    simpa using h,
   by
    have h := claim_C6_target_temperature_precedence.2.1
      { initState with preset_modes_mapping_set := [(.pstr "Fan", ⟨.pint 1, .pint 0⟩)] }
      20 rfl
    simpa using h,
   claim_C6_target_temperature_precedence.2.2 initState⟩

/-- Claim C8 counterexample: temperature_unit raises keyError on a
vendor-supplied unit string that is not a member of the unit enum, so the
read properties are not total on arbitrary snapshot contents. -/
theorem claim_C8_counterexample :
    temperature_unit
      [(("devices.capabilities.temperature_setting", "targetTemperature"),
        .pdict [("unit", .pstr "banana")])] = .error .keyError ∧
    current_temperature
      [(("devices.capabilities.property", "sensorTemperature"), .pfloat 50),
       (("devices.capabilities.temperature_setting", "targetTemperature"),
         .pdict [("unit", .pstr "banana")])] = .error .keyError := by
  constructor
  · decide
  · decide

/-- Claim C8 amended: the read properties are total with sentinel results
on absent, None or empty-string snapshot entries (hvac_mode is total
outright), though not on arbitrary ill-shaped present entries. -/
theorem claim_C8_amended :
    (∀ (st : ModeState) (snap : Snapshot),
      dlookup st.hvac_modes_mapping
        (getCachedStateValue snap "devices.capabilities.on_off" "powerSwitch") = none →
      hvac_mode st snap = .pstr "unknown") ∧
    (∀ (st : ModeState) (snap : Snapshot),
      (getCachedStateValue snap "devices.capabilities.work_mode" "workMode").truthy
        = false →
      preset_mode st snap = .ok .pnone) ∧
    (∀ snap : Snapshot,
      getCachedStateValue snap "devices.capabilities.temperature_setting"
        "targetTemperature" = .pnone →
      getCachedStateValue snap "devices.capabilities.temperature_setting"
        "sliderTemperature" = .pnone →
      temperature_unit snap = .ok .celsius) ∧
    (∀ snap : Snapshot,
      (getCachedStateValue snap "devices.capabilities.property" "sensorTemperature"
          = .pnone ∨
       getCachedStateValue snap "devices.capabilities.property" "sensorTemperature"
          = .pstr "") →
      current_temperature snap = .ok .pnone) ∧
    (∀ (st : ModeState) (snap : Snapshot),
      (getCachedStateValue snap "devices.capabilities.work_mode" "workMode").truthy
        = false →
      getCachedStateValue snap "devices.capabilities.temperature_setting"
        "sliderTemperature" = .pnone →
      target_temperature st snap = .ok .pnone) := by
  refine ⟨?_, ?_, ?_, ?_, ?_⟩
  · intro st snap h
    simp [hvac_mode, h]
  · intro st snap h
    exact preset_mode_falsy st snap h
  · intro snap h1 h2
    simp [temperature_unit, h1, h2, Except.bind, bind, pure, Except.pure]
  · intro snap h
    rcases h with h | h
    · simp [current_temperature, h, Except.bind, bind, pure, Except.pure]
    · simp [current_temperature, h, pyEq_refl, Except.bind, bind, pure, Except.pure]
  · intro st snap h1 h2
    have hp := preset_mode_falsy st snap h1
    simp [target_temperature, hp, h2, PyVal.truthy,
      Except.bind, bind, pure, Except.pure]

/-- Witness for claim C8 amended at concrete inputs: the empty snapshot
and an empty-string sensor reading. -/
theorem claim_C8_amended_witness :
    hvac_mode initState [] = .pstr "unknown" ∧
    preset_mode initState [] = .ok .pnone ∧
    temperature_unit [] = .ok .celsius ∧
    current_temperature
      [(("devices.capabilities.property", "sensorTemperature"), .pstr "")] = .ok .pnone ∧
    target_temperature initState [] = .ok .pnone :=
  ⟨claim_C8_amended.1 initState [] (by rfl),
   claim_C8_amended.2.1 initState [] (by rfl),
   claim_C8_amended.2.2.1 [] (by rfl) (by rfl),
   claim_C8_amended.2.2.2.1 _ (Or.inr (by rfl)),
   claim_C8_amended.2.2.2.2 initState [] (by rfl) (by rfl)⟩

/-- Claim C9 counterexample: with no targetTemperature snapshot entry the
set_temperature path calls a get method on None and raises attributeError
instead of defaulting the unit to Celsius. -/
theorem claim_C9_counterexample :
    async_set_temperature [] (.pint 25) = .error .attributeError := by rfl

/-- Claim C9 amended: when the targetTemperature snapshot entry is a dict,
the unit defaults to the Celsius string only when the dict lacks a unit
key, and the built command has the documented shape; when the entry is
absent the call raises attributeError. -/
theorem claim_C9_amended :
    (∀ (snap : Snapshot) (t : PyVal) (es : List (String × PyVal)),
      getCachedStateValue snap "devices.capabilities.temperature_setting"
        "targetTemperature" = .pdict es →
      async_set_temperature snap t = .ok (.pdict
        [("type", .pstr "devices.capabilities.temperature_setting"),
         ("instance", .pstr "targetTemperature"),
         ("value", .pdict [("temperature", t),
           ("unit", (dlookup es "unit").getD (.pstr "Celsius"))])])) ∧
    (∀ (snap : Snapshot) (t : PyVal),
      getCachedStateValue snap "devices.capabilities.temperature_setting"
        "targetTemperature" = .pnone →
      async_set_temperature snap t = .error .attributeError) := by
  constructor
  · intro snap t es h
    simp [async_set_temperature, h, PyVal.pyGet,
      Except.bind, bind, pure, Except.pure]
  · intro snap t h
    simp [async_set_temperature, h, PyVal.pyGet,
      Except.bind, bind, pure, Except.pure]

/-- Witness for claim C9 amended: a present reading without a unit key
defaults to Celsius, and the empty snapshot raises. -/
theorem claim_C9_amended_witness :
    async_set_temperature
      [(("devices.capabilities.temperature_setting", "targetTemperature"), .pdict [])]
      (.pint 25) = .ok (.pdict
        [("type", .pstr "devices.capabilities.temperature_setting"),
         ("instance", .pstr "targetTemperature"),
         ("value", .pdict [("temperature", .pint 25), ("unit", .pstr "Celsius")])]) ∧
    async_set_temperature [] (.pint 24) = .error .attributeError :=
  ⟨claim_C9_amended.1 _ (.pint 25) [] (by rfl),
   claim_C9_amended.2 [] (.pint 24) (by rfl)⟩

/-- A well-formed heater device config with no capabilities. -/
def cfgHeaterNoCaps : PyVal :=
  .pdict [("type", .pstr "devices.types.heater"), ("capabilities", .plist [])]

/-- A heater device config whose capability list holds one malformed
capability, an empty dict without a type key. -/
def cfgHeaterMalformed : PyVal :=
  .pdict [("type", .pstr "devices.types.heater"), ("capabilities", .plist [.pdict []])]

/-- Claim C1 counterexample: a capability without a type key makes the
mode model build raise keyError rather than skip the entry, and one
failing device makes the whole setup return with no entities added, even
though the same healthy device sets up fine on its own. -/
theorem claim_C1_counterexample :
    processCapabilities initState [.pdict []] = .error .keyError ∧
    asyncSetupEntry [cfgHeaterNoCaps, cfgHeaterMalformed, cfgHeaterNoCaps] [] = [] ∧
    (asyncSetupEntry [cfgHeaterNoCaps] []).length = 1 :=
  ⟨rfl, rfl, rfl⟩

/-- Claim C1 amended: a capability entry whose type tag is none of the
four recognized ones is skipped and processing continues with the rest;
but structurally malformed entries raise (see the counterexample), and one
failing device aborts the setup loop with nothing added at all. -/
theorem claim_C1_amended :
    (∀ (st : ModeState) (c t : PyVal) (rest : List PyVal),
      c.getItem "type" = .ok t →
      pyEq t (.pstr "devices.capabilities.on_off") = false →
      pyEq t (.pstr "devices.capabilities.temperature_setting") = false →
      pyEq t (.pstr "devices.capabilities.work_mode") = false →
      pyEq t (.pstr "devices.capabilities.property") = false →
      processCapabilities st (c :: rest) = processCapabilities st rest) ∧
    (∀ (cfg : PyVal) (err : PyErr) (rest : List PyVal) (acc : List ModeState),
      setupDevice cfg = .error err →
      asyncSetupEntry (cfg :: rest) acc = []) := by
  constructor
  · intro st c t rest ht h1 h2 h3 h4
    simp [processCapabilities, processCap, ht, h1, h2, h3, h4,
      Except.bind, bind, pure, Except.pure]
  · intro cfg err rest acc h
    simp [asyncSetupEntry, h]

/-- Witness for claim C1 amended: an unknown capability type is skipped,
and the malformed heater config aborts the loop. -/
theorem claim_C1_amended_witness :
    processCapabilities initState [.pdict [("type", .pstr "devices.capabilities.unknown")]]
      = processCapabilities initState [] ∧
    asyncSetupEntry [cfgHeaterMalformed] [] = [] :=
  ⟨claim_C1_amended.1 initState _ _ [] (by rfl) (by rfl) (by rfl) (by rfl) (by rfl),
   claim_C1_amended.2 cfgHeaterMalformed .keyError [] [] (by rfl)⟩

/-- Inversion of a successful Except bind. -/
theorem except_bind_ok_iff {e a b : Type} {x : Except e a} {f : a → Except e b} {r : b} :
    (x >>= f) = .ok r ↔ ∃ v, x = .ok v ∧ f v = .ok r := by
  cases x <;> simp [Except.bind, bind]

/-- A pure Except value is ok. -/
theorem except_pure_ok_iff {e a : Type} {v r : a} :
    (pure v : Except e a) = .ok r ↔ v = r := by
  simp [pure, Except.pure]

/-- Binding pure on the right is the identity. -/
theorem except_bind_pure {e a : Type} (x : Except e a) : (x >>= pure) = x := by
  cases x <;> simp [Except.bind, bind, pure, Except.pure]

/-- The three preset containers of the entity state, the part of the
ModeModel the work_mode branch owns. -/
structure PresetTriple where
  modes : List PyVal
  fwd : List (PyVal × PyVal)
  rev : List (PyVal × Payload)
deriving DecidableEq

/-- The preset containers of a state. -/
def presetTriple (st : ModeState) : PresetTriple :=
  ⟨st.preset_modes, st.preset_modes_mapping, st.preset_modes_mapping_set⟩

/-- The updates the on_off branch makes, split per mode model component:
appended hvac modes and the update sequences of both hvac maps. -/
structure OnOffOps where
  modes : List HVACMode
  fwd : List (PyVal × HVACMode)
  rev : List (HVACMode × PyVal)

/-- The updates one on_off option produces. -/
def onOffOptionOps (o : PyVal) : Except PyErr OnOffOps := do
  let name ← o.getItem "name"
  if pyEq name (.pstr "on") then do
    let v ← o.getItem "value"
    pure ⟨[.heatCool], [(v, .heatCool)], [(.heatCool, v)]⟩
  else if pyEq name (.pstr "off") then do
    let v ← o.getItem "value"
    pure ⟨[.hvacOff], [(v, .hvacOff)], [(.hvacOff, v)]⟩
  else
    pure ⟨[], [], []⟩

/-- The updates a whole on_off option list produces, in order. -/
def onOffOptionsOps : List PyVal → Except PyErr OnOffOps
  | [] => pure ⟨[], [], []⟩
  | o :: rest => do
      let a ← onOffOptionOps o
      let b ← onOffOptionsOps rest
      pure ⟨a.modes ++ b.modes, a.fwd ++ b.fwd, a.rev ++ b.rev⟩

/-- A successful on_off option step applies exactly its extracted updates:
the hvac components change by the cap-determined trace and the preset
containers are untouched. -/
theorem processOnOffOption_trace (st st2 : ModeState) (o : PyVal)
    (h : processOnOffOption st o = .ok st2) :
    ∃ ops : OnOffOps, onOffOptionOps o = .ok ops ∧
      st2.hvac_modes = st.hvac_modes ++ ops.modes ∧
      st2.hvac_modes_mapping = applyInserts st.hvac_modes_mapping ops.fwd ∧
      st2.hvac_modes_mapping_set = applyInserts st.hvac_modes_mapping_set ops.rev ∧
      presetTriple st2 = presetTriple st := by
  unfold processOnOffOption at h
  unfold onOffOptionOps
  rw [except_bind_ok_iff] at h
  obtain ⟨name, hname, h⟩ := h
  rw [hname]
  simp only [Except.bind, bind]
  by_cases h1 : pyEq name (.pstr "on") = true
  · rw [if_pos h1] at h ⊢
    rw [except_bind_ok_iff] at h
    obtain ⟨v, hv, h⟩ := h
    rw [hv]
    simp only [Except.bind, bind]
    rw [except_pure_ok_iff] at h
    refine ⟨⟨[.heatCool], [(v, .heatCool)], [(.heatCool, v)]⟩, rfl, ?_⟩
    rw [← h]
    exact ⟨rfl, rfl, rfl, rfl⟩
  · rw [if_neg h1] at h ⊢
    by_cases h2 : pyEq name (.pstr "off") = true
    · rw [if_pos h2] at h ⊢
      rw [except_bind_ok_iff] at h
      obtain ⟨v, hv, h⟩ := h
      rw [hv]
      simp only [Except.bind, bind]
      rw [except_pure_ok_iff] at h
      refine ⟨⟨[.hvacOff], [(v, .hvacOff)], [(.hvacOff, v)]⟩, rfl, ?_⟩
      rw [← h]
      exact ⟨rfl, rfl, rfl, rfl⟩
    · rw [if_neg h2] at h ⊢
      rw [except_pure_ok_iff] at h
      refine ⟨⟨[], [], []⟩, rfl, ?_⟩
      rw [← h]
      exact ⟨by simp, rfl, rfl, rfl⟩

/-- A successful on_off option loop applies exactly the concatenated
extracted updates and leaves the preset containers untouched. -/
theorem processOnOffOptions_trace : ∀ (opts : List PyVal) (st st2 : ModeState),
    processOnOffOptions st opts = .ok st2 →
    ∃ ops : OnOffOps, onOffOptionsOps opts = .ok ops ∧
      st2.hvac_modes = st.hvac_modes ++ ops.modes ∧
      st2.hvac_modes_mapping = applyInserts st.hvac_modes_mapping ops.fwd ∧
      st2.hvac_modes_mapping_set = applyInserts st.hvac_modes_mapping_set ops.rev ∧
      presetTriple st2 = presetTriple st
  | [], st, st2, h => by
      rw [show processOnOffOptions st [] = pure st from rfl, except_pure_ok_iff] at h
      refine ⟨⟨[], [], []⟩, rfl, ?_⟩
      rw [← h]
      exact ⟨by simp, rfl, rfl, rfl⟩
  | o :: rest, st, st2, h => by
      rw [show processOnOffOptions st (o :: rest)
        = (processOnOffOption st o >>= fun st1 => processOnOffOptions st1 rest) from rfl,
        except_bind_ok_iff] at h
      obtain ⟨st1, hst1, h⟩ := h
      obtain ⟨a, ha, ham, haf, har, hat⟩ := processOnOffOption_trace st st1 o hst1
      obtain ⟨b, hb, hbm, hbf, hbr, hbt⟩ := processOnOffOptions_trace rest st1 st2 h
      refine ⟨⟨a.modes ++ b.modes, a.fwd ++ b.fwd, a.rev ++ b.rev⟩, ?_, ?_, ?_, ?_, ?_⟩
      · rw [show onOffOptionsOps (o :: rest)
          = (onOffOptionOps o >>= fun x => onOffOptionsOps rest >>= fun y =>
              pure ⟨x.modes ++ y.modes, x.fwd ++ y.fwd, x.rev ++ y.rev⟩) from rfl,
          ha, hb]
        rfl
      · rw [hbm, ham, List.append_assoc]
      · rw [hbf, haf, applyInserts_append]
      · rw [hbr, har, applyInserts_append]
      · rw [hbt, hat]

/-- One temperature_setting field only writes the temperature attributes:
the hvac components and the preset containers are untouched. -/
theorem processTempField_frame (st st2 : ModeState) (f : PyVal)
    (h : processTempField st f = .ok st2) :
    st2.hvac_modes = st.hvac_modes ∧
    st2.hvac_modes_mapping = st.hvac_modes_mapping ∧
    st2.hvac_modes_mapping_set = st.hvac_modes_mapping_set ∧
    presetTriple st2 = presetTriple st := by
  unfold processTempField at h
  rw [except_bind_ok_iff] at h
  obtain ⟨fn, hfn, h⟩ := h
  by_cases h1 : pyEq fn (.pstr "temperature") = true
  · rw [if_pos h1, except_bind_ok_iff] at h
    obtain ⟨r1, hr1, h⟩ := h
    rw [except_bind_ok_iff] at h
    obtain ⟨mx, hmx, h⟩ := h
    rw [except_bind_ok_iff] at h
    obtain ⟨r2, hr2, h⟩ := h
    rw [except_bind_ok_iff] at h
    obtain ⟨mn, hmn, h⟩ := h
    rw [except_bind_ok_iff] at h
    obtain ⟨r3, hr3, h⟩ := h
    rw [except_bind_ok_iff] at h
    obtain ⟨pr, hpr, h⟩ := h
    rw [except_pure_ok_iff] at h
    rw [← h]
    exact ⟨rfl, rfl, rfl, rfl⟩
  · rw [if_neg h1] at h
    by_cases h2 : pyEq fn (.pstr "unit") = true
    · rw [if_pos h2, except_bind_ok_iff] at h
      obtain ⟨dv, hdv, h⟩ := h
      rw [except_bind_ok_iff] at h
      obtain ⟨up, hup, h⟩ := h
      cases up with
      | pstr s =>
          rw [except_bind_ok_iff] at h
          obtain ⟨u, hu, h⟩ := h
          rw [except_pure_ok_iff] at h
          rw [← h]
          exact ⟨rfl, rfl, rfl, rfl⟩
      | pnone => rw [except_pure_ok_iff] at h; rw [← h]; exact ⟨rfl, rfl, rfl, rfl⟩
      | pbool b => rw [except_pure_ok_iff] at h; rw [← h]; exact ⟨rfl, rfl, rfl, rfl⟩
      | pint n => rw [except_pure_ok_iff] at h; rw [← h]; exact ⟨rfl, rfl, rfl, rfl⟩
      | pfloat q => rw [except_pure_ok_iff] at h; rw [← h]; exact ⟨rfl, rfl, rfl, rfl⟩
      | plist xs => rw [except_pure_ok_iff] at h; rw [← h]; exact ⟨rfl, rfl, rfl, rfl⟩
      | pdict es => rw [except_pure_ok_iff] at h; rw [← h]; exact ⟨rfl, rfl, rfl, rfl⟩
    · rw [if_neg h2] at h
      by_cases h3 : pyEq fn (.pstr "autoStop") = true
      · rw [if_pos h3, except_pure_ok_iff] at h
        rw [← h]
        exact ⟨rfl, rfl, rfl, rfl⟩
      · rw [if_neg h3, except_pure_ok_iff] at h
        rw [← h]
        exact ⟨rfl, rfl, rfl, rfl⟩

/-- The temperature_setting field loop keeps the hvac components and the
preset containers untouched. -/
theorem processTempFields_frame : ∀ (fs : List PyVal) (st st2 : ModeState),
    processTempFields st fs = .ok st2 →
    st2.hvac_modes = st.hvac_modes ∧
    st2.hvac_modes_mapping = st.hvac_modes_mapping ∧
    st2.hvac_modes_mapping_set = st.hvac_modes_mapping_set ∧
    presetTriple st2 = presetTriple st
  | [], st, st2, h => by
      rw [show processTempFields st [] = pure st from rfl, except_pure_ok_iff] at h
      rw [← h]
      exact ⟨rfl, rfl, rfl, rfl⟩
  | f :: rest, st, st2, h => by
      rw [show processTempFields st (f :: rest)
        = (processTempField st f >>= fun st1 => processTempFields st1 rest) from rfl,
        except_bind_ok_iff] at h
      obtain ⟨st1, hst1, h⟩ := h
      obtain ⟨a1, a2, a3, a4⟩ := processTempField_frame st st1 f hst1
      obtain ⟨b1, b2, b3, b4⟩ := processTempFields_frame rest st1 st2 h
      exact ⟨b1.trans a1, b2.trans a2, b3.trans a3, b4.trans a4⟩

/-- Write the preset containers of a triple into a state. -/
def setTriple (st : ModeState) (tr : PresetTriple) : ModeState :=
  { st with preset_modes := tr.modes, preset_modes_mapping := tr.fwd,
            preset_modes_mapping_set := tr.rev }

/-- The gearMode level step viewed on the preset containers alone. -/
def gearLevelT (value : PyVal) (tr : PresetTriple) (level : PyVal) :
    Except PyErr PresetTriple := do
  let levelName ← level.getItem "name"
  let levelValue ← level.getItem "value"
  let modeName : PyVal := .pstr ("gearMode-" ++ pyStr levelName)
  pure ⟨tr.modes ++ [modeName], dinsert tr.fwd modeName value,
        dinsert tr.rev modeName ⟨value, levelValue⟩⟩

/-- The gearMode level loop viewed on the preset containers alone. -/
def gearLevelsT : PresetTriple → PyVal → List PyVal → Except PyErr PresetTriple
  | tr, _, [] => pure tr
  | tr, value, level :: rest => do
      let tr2 ← gearLevelT value tr level
      gearLevelsT tr2 value rest

/-- The gearMode sub step viewed on the preset containers alone. -/
def gearSubT (value : PyVal) (tr : PresetTriple) (sub : PyVal) :
    Except PyErr PresetTriple := do
  let n ← sub.pyGet "name" .pnone
  if !(pyEq n (.pstr "gearMode")) then
    pure tr
  else do
    let optsV ← sub.pyGet "options" (.plist [])
    let levels ← pyIter optsV
    gearLevelsT tr value levels

/-- The gearMode sub loop viewed on the preset containers alone. -/
def gearSubsT : PresetTriple → PyVal → List PyVal → Except PyErr PresetTriple
  | tr, _, [] => pure tr
  | tr, value, sub :: rest => do
      let tr2 ← gearSubT value tr sub
      gearSubsT tr2 value rest

/-- The work option step viewed on the preset containers alone. -/
def workOptionT (modeField : PyVal) (tr : PresetTriple) (workOption : PyVal) :
    Except PyErr PresetTriple := do
  let name ← workOption.getItem "name"
  let value ← workOption.getItem "value"
  if pyEq name (.pstr "gearMode") then do
    let subsV ← modeField.pyGet "options" (.plist [])
    let subs ← pyIter subsV
    gearSubsT tr value subs
  else do
    let optsV ← modeField.pyGet "options" (.plist [])
    let opts ← pyIter optsV
    let defaultVal ← findDefaultVal name opts (.pint 0)
    pure ⟨tr.modes ++ [name], dinsert tr.fwd name value,
          dinsert tr.rev name ⟨value, defaultVal⟩⟩

/-- The work option loop viewed on the preset containers alone. -/
def workOptionsT : PresetTriple → PyVal → List PyVal → Except PyErr PresetTriple
  | tr, _, [] => pure tr
  | tr, modeField, opt :: rest => do
      let tr2 ← workOptionT modeField tr opt
      workOptionsT tr2 modeField rest

/-- The whole work_mode branch viewed on the preset containers alone,
starting from the reset (empty) containers. -/
def workModeCapT (cap : PyVal) : Except PyErr PresetTriple := do
  let params ← cap.getItem "parameters"
  let fieldsV ← params.getItem "fields"
  let fields ← pyIter fieldsV
  let workField ← findField fields "workMode"
  let modeField ← findField fields "modeValue"
  match workField, modeField with
  | some _, some mf => do
      let optsV ← (workField.getD .pnone).pyGet "options" (.plist [])
      let opts ← pyIter optsV
      workOptionsT ⟨[], [], []⟩ mf opts
  | _, _ => pure ⟨[], [], []⟩

/-- Writing back the containers just read leaves the state unchanged. -/
theorem setTriple_presetTriple (st : ModeState) : setTriple st (presetTriple st) = st := rfl

/-- Reading the containers just written yields them back. -/
theorem presetTriple_setTriple (st : ModeState) (tr : PresetTriple) :
    presetTriple (setTriple st tr) = tr := rfl

/-- Writing containers twice keeps only the second write. -/
theorem setTriple_setTriple (st : ModeState) (tr tr2 : PresetTriple) :
    setTriple (setTriple st tr) tr2 = setTriple st tr2 := rfl

/-- The gearMode level step is the ghost triple step written back. -/
theorem processGearLevel_factor (st : ModeState) (value level : PyVal) :
    processGearLevel st value level =
      Except.map (setTriple st) (gearLevelT value (presetTriple st) level) := by
  unfold processGearLevel gearLevelT
  cases level.getItem "name" with
  | error e => simp [Except.bind, bind, Except.map]
  | ok n =>
      simp only [Except.bind, bind]
      cases level.getItem "value" with
      | error e => simp [Except.map]
      | ok v =>
          simp only [Except.map, pure, Except.pure]
          rfl

/-- The gearMode level loop is the ghost triple loop written back. -/
theorem processGearLevels_factor : ∀ (levels : List PyVal) (st : ModeState) (value : PyVal),
    processGearLevels st value levels =
      Except.map (setTriple st) (gearLevelsT (presetTriple st) value levels)
  | [], st, value => by
      simp [processGearLevels, gearLevelsT, Except.map, pure, Except.pure,
        setTriple_presetTriple]
  | level :: rest, st, value => by
      rw [show processGearLevels st value (level :: rest)
          = (processGearLevel st value level >>= fun st2 =>
              processGearLevels st2 value rest) from rfl,
        show gearLevelsT (presetTriple st) value (level :: rest)
          = (gearLevelT value (presetTriple st) level >>= fun tr2 =>
              gearLevelsT tr2 value rest) from rfl,
        processGearLevel_factor]
      cases gearLevelT value (presetTriple st) level with
      | error e => simp [Except.map, Except.bind, bind]
      | ok tr2 =>
          simp only [Except.map, Except.bind, bind]
          rw [processGearLevels_factor rest (setTriple st tr2) value,
            presetTriple_setTriple]
          have hcomp : setTriple (setTriple st tr2) = setTriple st :=
            funext (fun tr3 => rfl)
          rw [hcomp]
          cases gearLevelsT tr2 value rest <;> rfl

/-- The gearMode sub step is the ghost triple step written back. -/
theorem processGearSub_factor (st : ModeState) (value sub : PyVal) :
    processGearSub st value sub =
      Except.map (setTriple st) (gearSubT value (presetTriple st) sub) := by
  unfold processGearSub gearSubT
  cases sub.pyGet "name" .pnone with
  | error e => simp [Except.bind, bind, Except.map]
  | ok n =>
      simp only [Except.bind, bind]
      by_cases hn : (!(pyEq n (.pstr "gearMode"))) = true
      · rw [if_pos hn, if_pos hn]
        simp [Except.map, pure, Except.pure, setTriple_presetTriple]
      · rw [if_neg hn, if_neg hn]
        cases sub.pyGet "options" (.plist []) with
        | error e => simp [Except.bind, bind, Except.map]
        | ok optsV =>
            simp only [Except.bind, bind]
            cases pyIter optsV with
            | error e => simp [Except.map]
            | ok levels => exact processGearLevels_factor levels st value

/-- The gearMode sub loop is the ghost triple loop written back. -/
theorem processGearSubs_factor : ∀ (subs : List PyVal) (st : ModeState) (value : PyVal),
    processGearSubs st value subs =
      Except.map (setTriple st) (gearSubsT (presetTriple st) value subs)
  | [], st, value => by
      simp [processGearSubs, gearSubsT, Except.map, pure, Except.pure,
        setTriple_presetTriple]
  | sub :: rest, st, value => by
      rw [show processGearSubs st value (sub :: rest)
          = (processGearSub st value sub >>= fun st2 =>
              processGearSubs st2 value rest) from rfl,
        show gearSubsT (presetTriple st) value (sub :: rest)
          = (gearSubT value (presetTriple st) sub >>= fun tr2 =>
              gearSubsT tr2 value rest) from rfl,
        processGearSub_factor]
      cases gearSubT value (presetTriple st) sub with
      | error e => simp [Except.map, Except.bind, bind]
      | ok tr2 =>
          simp only [Except.map, Except.bind, bind]
          rw [processGearSubs_factor rest (setTriple st tr2) value,
            presetTriple_setTriple]
          have hcomp : setTriple (setTriple st tr2) = setTriple st :=
            funext (fun tr3 => rfl)
          rw [hcomp]
          cases gearSubsT tr2 value rest <;> rfl

/-- The work option step is the ghost triple step written back. -/
theorem processWorkOption_factor (st : ModeState) (modeField o : PyVal) :
    processWorkOption st modeField o =
      Except.map (setTriple st) (workOptionT modeField (presetTriple st) o) := by
  unfold processWorkOption workOptionT
  cases o.getItem "name" with
  | error e => simp [Except.bind, bind, Except.map]
  | ok name =>
      simp only [Except.bind, bind]
      cases o.getItem "value" with
      | error e => simp [Except.map]
      | ok value =>
          simp only [Except.bind, bind]
          by_cases hg : pyEq name (.pstr "gearMode") = true
          · rw [if_pos hg, if_pos hg]
            cases modeField.pyGet "options" (.plist []) with
            | error e => simp [Except.bind, bind, Except.map]
            | ok subsV =>
                simp only [Except.bind, bind]
                cases pyIter subsV with
                | error e => simp [Except.map]
                | ok subs => exact processGearSubs_factor subs st value
          · rw [if_neg hg, if_neg hg]
            cases modeField.pyGet "options" (.plist []) with
            | error e => simp [Except.bind, bind, Except.map]
            | ok optsV =>
                simp only [Except.bind, bind]
                cases pyIter optsV with
                | error e => simp [Except.map]
                | ok opts =>
                    simp only [Except.bind, bind]
                    cases findDefaultVal name opts (.pint 0) with
                    | error e => simp [Except.map]
                    | ok defaultVal =>
                        simp only [Except.map, pure, Except.pure]
                        rfl

/-- The work option loop is the ghost triple loop written back. -/
theorem processWorkOptions_factor : ∀ (opts : List PyVal) (st : ModeState) (mf : PyVal),
    processWorkOptions st mf opts =
      Except.map (setTriple st) (workOptionsT (presetTriple st) mf opts)
  | [], st, mf => by
      simp [processWorkOptions, workOptionsT, Except.map, pure, Except.pure,
        setTriple_presetTriple]
  | o :: rest, st, mf => by
      rw [show processWorkOptions st mf (o :: rest)
          = (processWorkOption st mf o >>= fun st2 =>
              processWorkOptions st2 mf rest) from rfl,
        show workOptionsT (presetTriple st) mf (o :: rest)
          = (workOptionT mf (presetTriple st) o >>= fun tr2 =>
              workOptionsT tr2 mf rest) from rfl,
        processWorkOption_factor]
      cases workOptionT mf (presetTriple st) o with
      | error e => simp [Except.map, Except.bind, bind]
      | ok tr2 =>
          simp only [Except.map, Except.bind, bind]
          rw [processWorkOptions_factor rest (setTriple st tr2) mf,
            presetTriple_setTriple]
          have hcomp : setTriple (setTriple st tr2) = setTriple st :=
            funext (fun tr3 => rfl)
          rw [hcomp]
          cases workOptionsT tr2 mf rest <;> rfl

/-- The whole work_mode branch is the ghost triple computation written
back over the state with the preset feature bit added: in particular the
resulting preset containers depend only on the capability descriptor. -/
theorem processWorkModeCap_factor (st : ModeState) (cap : PyVal) :
    processWorkModeCap st cap =
      Except.map
        (setTriple { st with
          supported_features := st.supported_features ||| PRESET_MODE_FLAG })
        (workModeCapT cap) := by
  unfold processWorkModeCap workModeCapT
  cases cap.getItem "parameters" with
  | error e => simp [Except.bind, bind, Except.map]
  | ok params =>
      simp only [Except.bind, bind]
      cases params.getItem "fields" with
      | error e => simp [Except.map]
      | ok fieldsV =>
          simp only [Except.bind, bind]
          cases pyIter fieldsV with
          | error e => simp [Except.map]
          | ok fields =>
              simp only [Except.bind, bind]
              cases findField fields "workMode" with
              | error e => simp [Except.map]
              | ok workField =>
                  simp only [Except.bind, bind]
                  cases findField fields "modeValue" with
                  | error e => simp [Except.map]
                  | ok modeField =>
                      simp only [Except.bind, bind]
                      cases workField with
                      | none =>
                          cases modeField with
                          | none => simp [Except.map, pure, Except.pure]; rfl
                          | some mf => simp [Except.map, pure, Except.pure]; rfl
                      | some wf =>
                          cases modeField with
                          | none => simp [Except.map, pure, Except.pure]; rfl
                          | some mf =>
                              simp only []
                              cases (Option.getD (some wf) .pnone).pyGet "options"
                                  (.plist []) with
                              | error e => simp [Except.bind, bind, Except.map]
                              | ok optsV =>
                                  simp only [Except.bind, bind]
                                  cases pyIter optsV with
                                  | error e => simp [Except.map]
                                  | ok opts =>
                                      simp only [Except.bind, bind]
                                      rw [processWorkOptions_factor]
                                      have hcomp :
                                          setTriple { st with
                                            supported_features :=
                                              st.supported_features ||| PRESET_MODE_FLAG,
                                            preset_modes := [],
                                            preset_modes_mapping := [],
                                            preset_modes_mapping_set := [] }
                                          = setTriple { st with
                                            supported_features :=
                                              st.supported_features ||| PRESET_MODE_FLAG } :=
                                        funext (fun tr => rfl)
                                      rw [show presetTriple { st with
                                            supported_features :=
                                              st.supported_features ||| PRESET_MODE_FLAG,
                                            preset_modes := [],
                                            preset_modes_mapping := [],
                                            preset_modes_mapping_set := [] }
                                          = ⟨[], [], []⟩ from rfl, hcomp]

/-- Inversion of a successful Except map. -/
theorem except_map_ok_iff {e a b : Type} {f : a → b} {x : Except e a} {r : b} :
    Except.map f x = .ok r ↔ ∃ v, x = .ok v ∧ f v = r := by
  cases x <;> simp [Except.map]

/-- Two successful runs of the capability dispatch over the same
descriptor from different states perform the same componentwise changes:
the appended hvac modes and the two hvac map update sequences are
determined by the descriptor, and the preset containers are either left
untouched in both runs or end equal in both runs. -/
theorem processCap_sim (c : PyVal) (sa sb sa2 sb2 : ModeState)
    (ha : processCap sa c = .ok sa2) (hb : processCap sb c = .ok sb2) :
    (∃ L, sa2.hvac_modes = sa.hvac_modes ++ L ∧ sb2.hvac_modes = sb.hvac_modes ++ L) ∧
    (∃ S, sa2.hvac_modes_mapping = applyInserts sa.hvac_modes_mapping S ∧
      sb2.hvac_modes_mapping = applyInserts sb.hvac_modes_mapping S) ∧
    (∃ T, sa2.hvac_modes_mapping_set = applyInserts sa.hvac_modes_mapping_set T ∧
      sb2.hvac_modes_mapping_set = applyInserts sb.hvac_modes_mapping_set T) ∧
    ((presetTriple sa2 = presetTriple sa ∧ presetTriple sb2 = presetTriple sb) ∨
      presetTriple sa2 = presetTriple sb2) := by
  unfold processCap at ha hb
  rw [except_bind_ok_iff] at ha hb
  obtain ⟨t, ht, ha⟩ := ha
  obtain ⟨t2, ht2, hb⟩ := hb
  rw [ht] at ht2
  have htt : t2 = t := by
    have := (Except.ok.injEq _ _).mp ht2
    rw [this]
  rw [htt] at hb
  clear ht ht2 htt t2
  by_cases h1 : pyEq t (.pstr "devices.capabilities.on_off") = true
  · rw [if_pos h1] at ha hb
    rw [except_bind_ok_iff] at ha hb
    obtain ⟨params, hp, ha⟩ := ha
    obtain ⟨params2, hp2, hb⟩ := hb
    rw [hp] at hp2
    rw [← (Except.ok.injEq _ _).mp hp2] at hb
    rw [except_bind_ok_iff] at ha hb
    obtain ⟨optsV, ho, ha⟩ := ha
    obtain ⟨optsV2, ho2, hb⟩ := hb
    rw [ho] at ho2
    rw [← (Except.ok.injEq _ _).mp ho2] at hb
    rw [except_bind_ok_iff] at ha hb
    obtain ⟨opts, hi, ha⟩ := ha
    obtain ⟨opts2, hi2, hb⟩ := hb
    rw [hi] at hi2
    rw [← (Except.ok.injEq _ _).mp hi2] at hb
    obtain ⟨opsA, hopsA, haM, haF, haR, haT⟩ := processOnOffOptions_trace opts sa sa2 ha
    obtain ⟨opsB, hopsB, hbM, hbF, hbR, hbT⟩ := processOnOffOptions_trace opts sb sb2 hb
    rw [hopsA] at hopsB
    rw [← (Except.ok.injEq _ _).mp hopsB] at hbM hbF hbR
    exact ⟨⟨opsA.modes, haM, hbM⟩, ⟨opsA.fwd, haF, hbF⟩, ⟨opsA.rev, haR, hbR⟩,
      Or.inl ⟨haT, hbT⟩⟩
  · rw [if_neg h1] at ha hb
    by_cases h2 : pyEq t (.pstr "devices.capabilities.temperature_setting") = true
    · rw [if_pos h2] at ha hb
      rw [except_bind_ok_iff] at ha hb
      obtain ⟨inst1, hin, ha⟩ := ha
      obtain ⟨inst2, hin2, hb⟩ := hb
      rw [hin] at hin2
      rw [← (Except.ok.injEq _ _).mp hin2] at hb
      by_cases h3 : (pyEq inst1 (.pstr "targetTemperature") ||
          pyEq inst1 (.pstr "sliderTemperature")) = true
      · rw [if_pos h3] at ha hb
        rw [except_bind_ok_iff] at ha hb
        obtain ⟨params, hp, ha⟩ := ha
        obtain ⟨params2, hp2, hb⟩ := hb
        rw [hp] at hp2
        rw [← (Except.ok.injEq _ _).mp hp2] at hb
        rw [except_bind_ok_iff] at ha hb
        obtain ⟨fieldsV, hf, ha⟩ := ha
        obtain ⟨fieldsV2, hf2, hb⟩ := hb
        rw [hf] at hf2
        rw [← (Except.ok.injEq _ _).mp hf2] at hb
        rw [except_bind_ok_iff] at ha hb
        obtain ⟨fields, hfl, ha⟩ := ha
        obtain ⟨fields2, hfl2, hb⟩ := hb
        rw [hfl] at hfl2
        rw [← (Except.ok.injEq _ _).mp hfl2] at hb
        obtain ⟨a1, a2, a3, a4⟩ := processTempFields_frame fields _ sa2 ha
        obtain ⟨b1, b2, b3, b4⟩ := processTempFields_frame fields _ sb2 hb
        refine ⟨⟨[], by simp [a1], by simp [b1]⟩, ⟨[], a2, b2⟩, ⟨[], a3, b3⟩,
          Or.inl ⟨a4, b4⟩⟩
      · rw [if_neg h3, except_pure_ok_iff] at ha hb
        rw [← ha, ← hb]
        exact ⟨⟨[], by simp, by simp⟩, ⟨[], rfl, rfl⟩, ⟨[], rfl, rfl⟩,
          Or.inl ⟨rfl, rfl⟩⟩
    · rw [if_neg h2] at ha hb
      by_cases h4 : pyEq t (.pstr "devices.capabilities.work_mode") = true
      · rw [if_pos h4] at ha hb
        rw [processWorkModeCap_factor, except_map_ok_iff] at ha hb
        obtain ⟨trA, htrA, ha⟩ := ha
        obtain ⟨trB, htrB, hb⟩ := hb
        rw [htrA] at htrB
        rw [← (Except.ok.injEq _ _).mp htrB] at hb
        rw [← ha, ← hb]
        refine ⟨⟨[], by simp [setTriple], by simp [setTriple]⟩,
          ⟨[], rfl, rfl⟩, ⟨[], rfl, rfl⟩, Or.inr ?_⟩
        rw [presetTriple_setTriple, presetTriple_setTriple]
      · rw [if_neg h4] at ha hb
        by_cases h5 : pyEq t (.pstr "devices.capabilities.property") = true
        · rw [if_pos h5] at ha hb
          rw [except_bind_ok_iff] at ha hb
          obtain ⟨i1, hi1, ha⟩ := ha
          obtain ⟨i2, hi2, hb⟩ := hb
          rw [except_pure_ok_iff] at ha hb
          rw [← ha, ← hb]
          exact ⟨⟨[], by simp, by simp⟩, ⟨[], rfl, rfl⟩, ⟨[], rfl, rfl⟩,
            Or.inl ⟨rfl, rfl⟩⟩
        · rw [if_neg h5, except_pure_ok_iff] at ha hb
          rw [← ha, ← hb]
          exact ⟨⟨[], by simp, by simp⟩, ⟨[], rfl, rfl⟩, ⟨[], rfl, rfl⟩,
            Or.inl ⟨rfl, rfl⟩⟩

/-- Two successful runs of the capability loop over the same list from
different states perform the same componentwise changes. -/
theorem processCapabilities_sim : ∀ (caps : List PyVal) (sa sb sa2 sb2 : ModeState),
    processCapabilities sa caps = .ok sa2 → processCapabilities sb caps = .ok sb2 →
    (∃ L, sa2.hvac_modes = sa.hvac_modes ++ L ∧ sb2.hvac_modes = sb.hvac_modes ++ L) ∧
    (∃ S, sa2.hvac_modes_mapping = applyInserts sa.hvac_modes_mapping S ∧
      sb2.hvac_modes_mapping = applyInserts sb.hvac_modes_mapping S) ∧
    (∃ T, sa2.hvac_modes_mapping_set = applyInserts sa.hvac_modes_mapping_set T ∧
      sb2.hvac_modes_mapping_set = applyInserts sb.hvac_modes_mapping_set T) ∧
    ((presetTriple sa2 = presetTriple sa ∧ presetTriple sb2 = presetTriple sb) ∨
      presetTriple sa2 = presetTriple sb2)
  | [], sa, sb, sa2, sb2, ha, hb => by
      rw [show processCapabilities sa [] = pure sa from rfl, except_pure_ok_iff] at ha
      rw [show processCapabilities sb [] = pure sb from rfl, except_pure_ok_iff] at hb
      rw [← ha, ← hb]
      exact ⟨⟨[], by simp, by simp⟩, ⟨[], rfl, rfl⟩, ⟨[], rfl, rfl⟩,
        Or.inl ⟨rfl, rfl⟩⟩
  | c :: rest, sa, sb, sa2, sb2, ha, hb => by
      rw [show processCapabilities sa (c :: rest)
          = (processCap sa c >>= fun s => processCapabilities s rest) from rfl,
        except_bind_ok_iff] at ha
      rw [show processCapabilities sb (c :: rest)
          = (processCap sb c >>= fun s => processCapabilities s rest) from rfl,
        except_bind_ok_iff] at hb
      obtain ⟨sa1, ha1, ha⟩ := ha
      obtain ⟨sb1, hb1, hb⟩ := hb
      obtain ⟨⟨Lc, haM, hbM⟩, ⟨Sc, haF, hbF⟩, ⟨Tc, haR, hbR⟩, hcP⟩ :=
        processCap_sim c sa sb sa1 sb1 ha1 hb1
      obtain ⟨⟨Lr, haM2, hbM2⟩, ⟨Sr, haF2, hbF2⟩, ⟨Tr, haR2, hbR2⟩, hrP⟩ :=
        processCapabilities_sim rest sa1 sb1 sa2 sb2 ha hb
      refine ⟨⟨Lc ++ Lr, ?_, ?_⟩, ⟨Sc ++ Sr, ?_, ?_⟩, ⟨Tc ++ Tr, ?_, ?_⟩, ?_⟩
      · rw [haM2, haM, List.append_assoc]
      · rw [hbM2, hbM, List.append_assoc]
      · rw [haF2, haF, applyInserts_append]
      · rw [hbF2, hbF, applyInserts_append]
      · rw [haR2, haR, applyInserts_append]
      · rw [hbR2, hbR, applyInserts_append]
      · rcases hrP with ⟨hrA, hrB⟩ | hrE
        · rcases hcP with ⟨hcA, hcB⟩ | hcE
          · exact Or.inl ⟨hrA.trans hcA, hrB.trans hcB⟩
          · exact Or.inr ((hrA.trans hcE).trans hrB.symm)
        · exact Or.inr hrE

/-- Claim C2 amended: a second run of the capability parser over the same
list reproduces the hvac forward and reverse maps and all three preset
containers exactly, but appends a second copy of the hvac modes sequence,
because the hvac mode list accumulates across runs. -/
theorem claim_C2_amended (caps : List PyVal) (st1 st2 : ModeState)
    (h1 : processCapabilities initState caps = .ok st1)
    (h2 : processCapabilities st1 caps = .ok st2) :
    st2.hvac_modes = st1.hvac_modes ++ st1.hvac_modes ∧
    st2.hvac_modes_mapping = st1.hvac_modes_mapping ∧
    st2.hvac_modes_mapping_set = st1.hvac_modes_mapping_set ∧
    st2.preset_modes = st1.preset_modes ∧
    st2.preset_modes_mapping = st1.preset_modes_mapping ∧
    st2.preset_modes_mapping_set = st1.preset_modes_mapping_set := by
  obtain ⟨⟨L, hL1, hL2⟩, ⟨S, hS1, hS2⟩, ⟨T, hT1, hT2⟩, hP⟩ :=
    processCapabilities_sim caps initState st1 st1 st2 h1 h2
  have hL : L = st1.hvac_modes := by
    rw [hL1]
    rfl
  have htr : presetTriple st2 = presetTriple st1 := by
    rcases hP with ⟨hpa, hpb⟩ | hpe
    · exact hpb
    · exact hpe.symm
  have hm : st2.preset_modes = st1.preset_modes := congrArg PresetTriple.modes htr
  have hf : st2.preset_modes_mapping = st1.preset_modes_mapping :=
    congrArg PresetTriple.fwd htr
  have hr : st2.preset_modes_mapping_set = st1.preset_modes_mapping_set :=
    congrArg PresetTriple.rev htr
  refine ⟨?_, ?_, ?_, hm, hf, hr⟩
  · rw [hL2, hL]
  · rw [hS2, hS1]
    rw [show initState.hvac_modes_mapping = [] from rfl]
    exact applyInserts_idem [] S (by simp [dkeys])
  · rw [hT2, hT1]
    rw [show initState.hvac_modes_mapping_set = [] from rfl]
    exact applyInserts_idem [] T (by simp [dkeys])

/-- An on_off capability descriptor built from the given option list. -/
def onOffCapOf (opts : List PyVal) : PyVal :=
  .pdict [("type", .pstr "devices.capabilities.on_off"),
          ("parameters", .pdict [("options", .plist opts)])]

/-- The example capability list of the idempotence claim: one on_off
capability with an on option valued 1 and an off option valued 0. -/
def exC2caps : List PyVal :=
  [onOffCapOf [.pdict [("name", .pstr "on"), ("value", .pint 1)],
               .pdict [("name", .pstr "off"), ("value", .pint 0)]]]

/-- Claim C2 counterexample: running the capability parser twice on the
same on_off capability list does not reproduce the hvac modes sequence;
the second run yields a doubled sequence. -/
theorem claim_C2_counterexample :
    (do
      let s1 ← processCapabilities initState exC2caps
      let s2 ← processCapabilities s1 exC2caps
      pure (s1.hvac_modes, s2.hvac_modes) :
        Except PyErr (List HVACMode × List HVACMode))
      = .ok ([.heatCool, .hvacOff], [.heatCool, .hvacOff, .heatCool, .hvacOff]) ∧
    ([HVACMode.heatCool, .hvacOff] : List HVACMode)
      ≠ [.heatCool, .hvacOff, .heatCool, .hvacOff] :=
  ⟨rfl, by decide⟩

/-- The mode state after one parser run over the example list. -/
def exC2st1 : ModeState :=
  { supported_features := 384
    hvac_modes := [.heatCool, .hvacOff]
    hvac_modes_mapping := [(.pint 1, .heatCool), (.pint 0, .hvacOff)]
    hvac_modes_mapping_set := [(.heatCool, .pint 1), (.hvacOff, .pint 0)]
    preset_modes := []
    preset_modes_mapping := []
    preset_modes_mapping_set := []
    max_temp := none
    min_temp := none
    target_temperature_step := none
    temperature_unit_attr := none }

/-- The mode state after a second parser run over the example list. -/
def exC2st2 : ModeState :=
  { exC2st1 with hvac_modes := [.heatCool, .hvacOff, .heatCool, .hvacOff] }

/-- Witness for claim C2 amended at the example list. -/
theorem claim_C2_amended_witness :
    exC2st2.hvac_modes = exC2st1.hvac_modes ++ exC2st1.hvac_modes ∧
    exC2st2.hvac_modes_mapping = exC2st1.hvac_modes_mapping ∧
    exC2st2.hvac_modes_mapping_set = exC2st1.hvac_modes_mapping_set ∧
    exC2st2.preset_modes = exC2st1.preset_modes ∧
    exC2st2.preset_modes_mapping = exC2st1.preset_modes_mapping ∧
    exC2st2.preset_modes_mapping_set = exC2st1.preset_modes_mapping_set :=
  claim_C2_amended exC2caps exC2st1 exC2st2 (by decide) (by decide)

/-- One on_off option contributes mirror pairs to the two hvac maps. -/
theorem onOffOptionOps_rev_swap (o : PyVal) (a : OnOffOps)
    (h : onOffOptionOps o = .ok a) : a.rev = a.fwd.map Prod.swap := by
  unfold onOffOptionOps at h
  rw [except_bind_ok_iff] at h
  obtain ⟨name, hn, h⟩ := h
  by_cases h1 : pyEq name (.pstr "on") = true
  · rw [if_pos h1, except_bind_ok_iff] at h
    obtain ⟨v, hv, h⟩ := h
    rw [except_pure_ok_iff] at h
    rw [← h]
    rfl
  · rw [if_neg h1] at h
    by_cases h2 : pyEq name (.pstr "off") = true
    · rw [if_pos h2, except_bind_ok_iff] at h
      obtain ⟨v, hv, h⟩ := h
      rw [except_pure_ok_iff] at h
      rw [← h]
      rfl
    · rw [if_neg h2, except_pure_ok_iff] at h
      rw [← h]
      rfl

/-- An on_off option list contributes mirror pairs to the two hvac maps. -/
theorem onOffOptionsOps_rev_swap : ∀ (opts : List PyVal) (ops : OnOffOps),
    onOffOptionsOps opts = .ok ops → ops.rev = ops.fwd.map Prod.swap
  | [], ops, h => by
      rw [show onOffOptionsOps [] = pure ⟨[], [], []⟩ from rfl, except_pure_ok_iff] at h
      rw [← h]
      rfl
  | o :: rest, ops, h => by
      rw [show onOffOptionsOps (o :: rest)
          = (onOffOptionOps o >>= fun a => onOffOptionsOps rest >>= fun b =>
              pure ⟨a.modes ++ b.modes, a.fwd ++ b.fwd, a.rev ++ b.rev⟩) from rfl,
        except_bind_ok_iff] at h
      obtain ⟨a, ha, h⟩ := h
      rw [except_bind_ok_iff] at h
      obtain ⟨b, hb, h⟩ := h
      rw [except_pure_ok_iff] at h
      rw [← h]
      show a.rev ++ b.rev = (a.fwd ++ b.fwd).map Prod.swap
      rw [List.map_append, onOffOptionOps_rev_swap o a ha,
        onOffOptionsOps_rev_swap rest b hb]

/-- Under per-name value coherence, every forward pair one on_off option
contributes is the on pair for A or the off pair for B. -/
theorem onOffOptionOps_fwd_pairs (A B : PyVal) (o : PyVal) (a : OnOffOps)
    (h : onOffOptionOps o = .ok a)
    (hco : ∀ v, (o.getItem "name" = .ok (.pstr "on") → o.getItem "value" = .ok v → v = A) ∧
      (o.getItem "name" = .ok (.pstr "off") → o.getItem "value" = .ok v → v = B)) :
    ∀ p ∈ a.fwd, p = (A, HVACMode.heatCool) ∨ p = (B, HVACMode.hvacOff) := by
  unfold onOffOptionOps at h
  rw [except_bind_ok_iff] at h
  obtain ⟨name, hn, h⟩ := h
  by_cases h1 : pyEq name (.pstr "on") = true
  · have hname : name = .pstr "on" := (pyEq_pstr_right _ _).mp h1
    rw [if_pos h1, except_bind_ok_iff] at h
    obtain ⟨v, hv, h⟩ := h
    rw [except_pure_ok_iff] at h
    have hvA : v = A := (hco v).1 (by rw [← hname]; exact hn) hv
    rw [← h]
    intro p hp
    rw [show OnOffOps.fwd ⟨[.heatCool], [(v, .heatCool)], [(.heatCool, v)]⟩
      = [(v, HVACMode.heatCool)] from rfl, List.mem_singleton] at hp
    left
    rw [hp, hvA]
  · rw [if_neg h1] at h
    by_cases h2 : pyEq name (.pstr "off") = true
    · have hname : name = .pstr "off" := (pyEq_pstr_right _ _).mp h2
      rw [if_pos h2, except_bind_ok_iff] at h
      obtain ⟨v, hv, h⟩ := h
      rw [except_pure_ok_iff] at h
      have hvB : v = B := (hco v).2 (by rw [← hname]; exact hn) hv
      rw [← h]
      intro p hp
      rw [show OnOffOps.fwd ⟨[.hvacOff], [(v, .hvacOff)], [(.hvacOff, v)]⟩
        = [(v, HVACMode.hvacOff)] from rfl, List.mem_singleton] at hp
      right
      rw [hp, hvB]
    · rw [if_neg h2, except_pure_ok_iff] at h
      rw [← h]
      intro p hp
      exact absurd hp (by simp)

/-- Under per-name value coherence, every forward pair an on_off option
list contributes is the on pair for A or the off pair for B. -/
theorem onOffOptionsOps_fwd_pairs (A B : PyVal) : ∀ (opts : List PyVal) (ops : OnOffOps),
    onOffOptionsOps opts = .ok ops →
    (∀ o ∈ opts, ∀ v,
      (o.getItem "name" = .ok (.pstr "on") → o.getItem "value" = .ok v → v = A) ∧
      (o.getItem "name" = .ok (.pstr "off") → o.getItem "value" = .ok v → v = B)) →
    ∀ p ∈ ops.fwd, p = (A, HVACMode.heatCool) ∨ p = (B, HVACMode.hvacOff)
  | [], ops, h, _ => by
      rw [show onOffOptionsOps [] = pure ⟨[], [], []⟩ from rfl, except_pure_ok_iff] at h
      rw [← h]
      intro p hp
      exact absurd hp (by simp)
  | o :: rest, ops, h, hco => by
      rw [show onOffOptionsOps (o :: rest)
          = (onOffOptionOps o >>= fun a => onOffOptionsOps rest >>= fun b =>
              pure ⟨a.modes ++ b.modes, a.fwd ++ b.fwd, a.rev ++ b.rev⟩) from rfl,
        except_bind_ok_iff] at h
      obtain ⟨a, ha, h⟩ := h
      rw [except_bind_ok_iff] at h
      obtain ⟨b, hb, h⟩ := h
      rw [except_pure_ok_iff] at h
      rw [← h]
      intro p hp
      rw [show OnOffOps.fwd ⟨a.modes ++ b.modes, a.fwd ++ b.fwd, a.rev ++ b.rev⟩
        = a.fwd ++ b.fwd from rfl, List.mem_append] at hp
      rcases hp with hp | hp
      · exact onOffOptionOps_fwd_pairs A B o a ha
          (hco o (List.mem_cons_self _ _)) p hp
      · exact onOffOptionsOps_fwd_pairs A B rest b hb
          (fun o2 ho2 => hco o2 (List.mem_cons_of_mem _ ho2)) p hp

/-- An on option valued v in the list contributes the forward pair for v. -/
theorem onOffOptionsOps_fwd_mem_on : ∀ (opts : List PyVal) (ops : OnOffOps)
    (o v : PyVal), o ∈ opts → onOffOptionsOps opts = .ok ops →
    o.getItem "name" = .ok (.pstr "on") → o.getItem "value" = .ok v →
    (v, HVACMode.heatCool) ∈ ops.fwd
  | [], _, _, _, hmem, _, _, _ => absurd hmem (by simp)
  | o2 :: rest, ops, o, v, hmem, h, hn, hv => by
      rw [show onOffOptionsOps (o2 :: rest)
          = (onOffOptionOps o2 >>= fun a => onOffOptionsOps rest >>= fun b =>
              pure ⟨a.modes ++ b.modes, a.fwd ++ b.fwd, a.rev ++ b.rev⟩) from rfl,
        except_bind_ok_iff] at h
      obtain ⟨a, ha, h⟩ := h
      rw [except_bind_ok_iff] at h
      obtain ⟨b, hb, h⟩ := h
      rw [except_pure_ok_iff] at h
      rw [← h]
      rw [show OnOffOps.fwd ⟨a.modes ++ b.modes, a.fwd ++ b.fwd, a.rev ++ b.rev⟩
        = a.fwd ++ b.fwd from rfl, List.mem_append]
      rcases List.mem_cons.mp hmem with heq | hmem2
      · left
        rw [← heq] at ha
        unfold onOffOptionOps at ha
        rw [hn] at ha
        rw [show ((Except.ok (PyVal.pstr "on") : Except PyErr PyVal) >>= fun name =>
            if pyEq name (.pstr "on") = true then do
              let v2 ← o.getItem "value"
              pure (⟨[.heatCool], [(v2, .heatCool)], [(.heatCool, v2)]⟩ : OnOffOps)
            else if pyEq name (.pstr "off") = true then do
              let v2 ← o.getItem "value"
              pure (⟨[.hvacOff], [(v2, .hvacOff)], [(.hvacOff, v2)]⟩ : OnOffOps)
            else pure ⟨[], [], []⟩)
          = (do
              let v2 ← o.getItem "value"
              pure (⟨[.heatCool], [(v2, .heatCool)], [(.heatCool, v2)]⟩ : OnOffOps))
          from by
            simp only [Except.bind, bind]
            rw [if_pos (by rw [pyEq_pstr_right])]] at ha
        rw [except_bind_ok_iff] at ha
        obtain ⟨v2, hv2, ha⟩ := ha
        rw [hv] at hv2
        rw [← (Except.ok.injEq _ _).mp hv2] at ha
        rw [except_pure_ok_iff] at ha
        rw [← ha]
        exact List.mem_singleton.mpr rfl
      · right
        exact onOffOptionsOps_fwd_mem_on rest b o v hmem2 hb hn hv

/-- An off option valued v in the list contributes the forward pair for v. -/
theorem onOffOptionsOps_fwd_mem_off : ∀ (opts : List PyVal) (ops : OnOffOps)
    (o v : PyVal), o ∈ opts → onOffOptionsOps opts = .ok ops →
    o.getItem "name" = .ok (.pstr "off") → o.getItem "value" = .ok v →
    (v, HVACMode.hvacOff) ∈ ops.fwd
  | [], _, _, _, hmem, _, _, _ => absurd hmem (by simp)
  | o2 :: rest, ops, o, v, hmem, h, hn, hv => by
      rw [show onOffOptionsOps (o2 :: rest)
          = (onOffOptionOps o2 >>= fun a => onOffOptionsOps rest >>= fun b =>
              pure ⟨a.modes ++ b.modes, a.fwd ++ b.fwd, a.rev ++ b.rev⟩) from rfl,
        except_bind_ok_iff] at h
      obtain ⟨a, ha, h⟩ := h
      rw [except_bind_ok_iff] at h
      obtain ⟨b, hb, h⟩ := h
      rw [except_pure_ok_iff] at h
      rw [← h]
      rw [show OnOffOps.fwd ⟨a.modes ++ b.modes, a.fwd ++ b.fwd, a.rev ++ b.rev⟩
        = a.fwd ++ b.fwd from rfl, List.mem_append]
      rcases List.mem_cons.mp hmem with heq | hmem2
      · left
        rw [← heq] at ha
        unfold onOffOptionOps at ha
        rw [hn] at ha
        rw [show ((Except.ok (PyVal.pstr "off") : Except PyErr PyVal) >>= fun name =>
            if pyEq name (.pstr "on") = true then do
              let v2 ← o.getItem "value"
              pure (⟨[.heatCool], [(v2, .heatCool)], [(.heatCool, v2)]⟩ : OnOffOps)
            else if pyEq name (.pstr "off") = true then do
              let v2 ← o.getItem "value"
              pure (⟨[.hvacOff], [(v2, .hvacOff)], [(.hvacOff, v2)]⟩ : OnOffOps)
            else pure ⟨[], [], []⟩)
          = (do
              let v2 ← o.getItem "value"
              pure (⟨[.hvacOff], [(v2, .hvacOff)], [(.hvacOff, v2)]⟩ : OnOffOps))
          from by
            simp only [Except.bind, bind]
            rw [if_neg (by decide), if_pos (by decide)]] at ha
        rw [except_bind_ok_iff] at ha
        obtain ⟨v2, hv2, ha⟩ := ha
        rw [hv] at hv2
        rw [← (Except.ok.injEq _ _).mp hv2] at ha
        rw [except_pure_ok_iff] at ha
        rw [← ha]
        exact List.mem_singleton.mpr rfl
      · right
        exact onOffOptionsOps_fwd_mem_off rest b o v hmem2 hb hn hv

/-- Building from a single on_off capability is the option loop. -/
theorem processCapabilities_onOffCap (st : ModeState) (opts : List PyVal) :
    processCapabilities st [onOffCapOf opts] = processOnOffOptions st opts := by
  have hstep : ∀ x : Except PyErr ModeState,
      (x >>= fun s => processCapabilities s []) = x := by
    intro x
    cases x <;> rfl
  rw [show processCapabilities st [onOffCapOf opts]
      = (processCap st (onOffCapOf opts) >>= fun s => processCapabilities s []) from rfl,
    hstep]
  rfl

/-- Over a sequence of functional pairs, a lookup into the dictionary
built from nothing succeeds exactly on the pairs of the sequence. -/
theorem dlookup_applyInserts_nil_iff {K V : Type} [DecidableEq K]
    (S : List (K × V)) (j : K) (x : V)
    (hfun : ∀ p ∈ S, ∀ q ∈ S, p.1 = q.1 → p.2 = q.2) :
    dlookup (applyInserts ([] : List (K × V)) S) j = some x ↔ (j, x) ∈ S := by
  constructor
  · intro h
    rcases dlookup_applyInserts_some [] S j x h with h1 | h1
    · exact h1
    · exact absurd h1 (by simp [dlookup])
  · intro h
    have hjmem : j ∈ S.map Prod.fst := List.mem_map.mpr ⟨(j, x), h, rfl⟩
    have hsome : (dlookup (applyInserts ([] : List (K × V)) S) j).isSome :=
      (dlookup_isSome _ j).mpr (mem_dkeys_applyInserts_right [] S j hjmem)
    obtain ⟨y, hy⟩ := Option.isSome_iff_exists.mp hsome
    have hmem2 : (j, y) ∈ S := by
      rcases dlookup_applyInserts_some [] S j y hy with h1 | h1
      · exact h1
      · exact absurd h1 (by simp [dlookup])
    have hyx : y = x := hfun (j, y) hmem2 (j, x) h rfl
    rw [hy, hyx]

/-- Claim C3 counterexample: an on_off descriptor whose options carry the
same vendor value 1 for on and for off ends with the forward map sending
1 to OFF, not HEAT_COOL, and a reverse map that is not its inverse. -/
theorem claim_C3_counterexample :
    (processCapabilities initState [onOffCapOf
        [.pdict [("name", .pstr "on"), ("value", .pint 1)],
         .pdict [("name", .pstr "off"), ("value", .pint 1)]]]).map
      (fun s => (dlookup s.hvac_modes_mapping (.pint 1),
        dlookup s.hvac_modes_mapping_set HVACMode.heatCool))
      = .ok (some HVACMode.hvacOff, some (.pint 1)) ∧
    HVACMode.hvacOff ≠ HVACMode.heatCool :=
  ⟨rfl, by decide⟩

/-- Claim C3 amended: for a model built from one on_off descriptor whose
on options all carry value A, whose off options all carry value B, with at
least one of each and A distinct from B, the forward map sends A to
HEAT_COOL and B to OFF, and the reverse map is the exact inverse of the
forward map. -/
theorem claim_C3_amended (opts : List PyVal) (A B : PyVal) (st : ModeState)
    (hb : processCapabilities initState [onOffCapOf opts] = .ok st)
    (hon : ∃ o ∈ opts, o.getItem "name" = .ok (.pstr "on") ∧ o.getItem "value" = .ok A)
    (hoff : ∃ o ∈ opts, o.getItem "name" = .ok (.pstr "off") ∧ o.getItem "value" = .ok B)
    (hco : ∀ o ∈ opts, ∀ v,
      (o.getItem "name" = .ok (.pstr "on") → o.getItem "value" = .ok v → v = A) ∧
      (o.getItem "name" = .ok (.pstr "off") → o.getItem "value" = .ok v → v = B))
    (hAB : A ≠ B) :
    dlookup st.hvac_modes_mapping A = some HVACMode.heatCool ∧
    dlookup st.hvac_modes_mapping B = some HVACMode.hvacOff ∧
    dlookup st.hvac_modes_mapping_set HVACMode.heatCool = some A ∧
    dlookup st.hvac_modes_mapping_set HVACMode.hvacOff = some B ∧
    (∀ (v : PyVal) (m : HVACMode),
      dlookup st.hvac_modes_mapping v = some m ↔
      dlookup st.hvac_modes_mapping_set m = some v) := by
  rw [processCapabilities_onOffCap] at hb
  obtain ⟨ops, hops, hM, hF, hR, hT⟩ := processOnOffOptions_trace opts initState st hb
  have hswap := onOffOptionsOps_rev_swap opts ops hops
  have hpairs := onOffOptionsOps_fwd_pairs A B opts ops hops hco
  have hfunF : ∀ p ∈ ops.fwd, ∀ q ∈ ops.fwd, p.1 = q.1 → p.2 = q.2 := by
    intro p hp q hq hk
    rcases hpairs p hp with rfl | rfl <;> rcases hpairs q hq with rfl | rfl
    · rfl
    · exact absurd hk hAB
    · exact absurd hk.symm hAB
    · rfl
  have hpairsR : ∀ p ∈ ops.rev,
      p = (HVACMode.heatCool, A) ∨ p = (HVACMode.hvacOff, B) := by
    rw [hswap]
    intro p hp
    obtain ⟨q, hq, hqs⟩ := List.mem_map.mp hp
    rcases hpairs q hq with rfl | rfl
    · left
      rw [← hqs]
      rfl
    · right
      rw [← hqs]
      rfl
  have hfunR : ∀ p ∈ ops.rev, ∀ q ∈ ops.rev, p.1 = q.1 → p.2 = q.2 := by
    intro p hp q hq hk
    rcases hpairsR p hp with rfl | rfl <;> rcases hpairsR q hq with rfl | rfl
    · rfl
    · exact absurd hk (by simp)
    · exact absurd hk (by simp)
    · rfl
  have hFiff : ∀ (v : PyVal) (m : HVACMode),
      dlookup st.hvac_modes_mapping v = some m ↔ (v, m) ∈ ops.fwd := by
    intro v m
    rw [hF, show initState.hvac_modes_mapping = [] from rfl]
    exact dlookup_applyInserts_nil_iff ops.fwd v m hfunF
  have hRiff : ∀ (m : HVACMode) (v : PyVal),
      dlookup st.hvac_modes_mapping_set m = some v ↔ (m, v) ∈ ops.rev := by
    intro m v
    rw [hR, show initState.hvac_modes_mapping_set = [] from rfl]
    exact dlookup_applyInserts_nil_iff ops.rev m v hfunR
  have hmemswap : ∀ (v : PyVal) (m : HVACMode),
      (m, v) ∈ ops.rev ↔ (v, m) ∈ ops.fwd := by
    intro v m
    rw [hswap]
    constructor
    · intro h
      obtain ⟨q, hq, hqs⟩ := List.mem_map.mp h
      have hqvm : q = (v, m) := by
        obtain ⟨q1, q2⟩ := q
        rw [show Prod.swap (q1, q2) = (q2, q1) from rfl, Prod.mk.injEq] at hqs
        rw [hqs.1, hqs.2]
      rw [← hqvm]
      exact hq
    · intro h
      exact List.mem_map.mpr ⟨(v, m), h, rfl⟩
  obtain ⟨oOn, hOnMem, hOnName, hOnValue⟩ := hon
  obtain ⟨oOff, hOffMem, hOffName, hOffValue⟩ := hoff
  have hmemA : (A, HVACMode.heatCool) ∈ ops.fwd :=
    onOffOptionsOps_fwd_mem_on opts ops oOn A hOnMem hops hOnName hOnValue
  have hmemB : (B, HVACMode.hvacOff) ∈ ops.fwd :=
    onOffOptionsOps_fwd_mem_off opts ops oOff B hOffMem hops hOffName hOffValue
  refine ⟨(hFiff A .heatCool).mpr hmemA, (hFiff B .hvacOff).mpr hmemB,
    (hRiff .heatCool A).mpr ((hmemswap A .heatCool).mpr hmemA),
    (hRiff .hvacOff B).mpr ((hmemswap B .hvacOff).mpr hmemB), ?_⟩
  intro v m
  rw [hFiff v m, hRiff m v, hmemswap v m]

/-- Witness for claim C3 amended at the example on_off capability with on
valued 1 and off valued 0. -/
theorem claim_C3_amended_witness :
    dlookup exC2st1.hvac_modes_mapping (.pint 1) = some HVACMode.heatCool ∧
    dlookup exC2st1.hvac_modes_mapping (.pint 0) = some HVACMode.hvacOff ∧
    dlookup exC2st1.hvac_modes_mapping_set HVACMode.heatCool = some (.pint 1) ∧
    dlookup exC2st1.hvac_modes_mapping_set HVACMode.hvacOff = some (.pint 0) := by
  have h := claim_C3_amended
    [.pdict [("name", .pstr "on"), ("value", .pint 1)],
     .pdict [("name", .pstr "off"), ("value", .pint 0)]]
    (.pint 1) (.pint 0) exC2st1 (by decide)
    ⟨.pdict [("name", .pstr "on"), ("value", .pint 1)],
      List.mem_cons_self _ _, by decide, by decide⟩
    ⟨.pdict [("name", .pstr "off"), ("value", .pint 0)],
      List.mem_cons_of_mem _ (List.mem_cons_self _ _), by decide, by decide⟩
    (by
      intro o ho v
      rcases List.mem_cons.mp ho with heq | ho2
      · constructor
        · intro hn hv
          rw [heq] at hv
          exact ((Except.ok.injEq _ _).mp hv).symm
        · intro hn hv
          rw [heq] at hn
          exact absurd hn (by decide)
      · rcases List.mem_cons.mp ho2 with heq | ho3
        · constructor
          · intro hn hv
            rw [heq] at hn
            exact absurd hn (by decide)
          · intro hn hv
            rw [heq] at hv
            exact ((Except.ok.injEq _ _).mp hv).symm
        · exact absurd ho3 (by simp))
    (by decide)
  exact ⟨h.1, h.2.1, h.2.2.1, h.2.2.2.1⟩

/-- The 1:1 invariant between the advertised preset names and the keys of
the reverse preset map, as sets. -/
def TripleInv (tr : PresetTriple) : Prop :=
  ∀ x, x ∈ tr.modes ↔ x ∈ dkeys tr.rev

/-- The empty containers satisfy the invariant. -/
theorem tripleInv_empty : TripleInv ⟨[], [], []⟩ := by
  intro x
  simp [dkeys]

/-- A gearMode level step preserves the invariant: the name and the
reverse map key are appended in lockstep. -/
theorem gearLevelT_inv (value level : PyVal) (tr tr2 : PresetTriple)
    (h : gearLevelT value tr level = .ok tr2) (hinv : TripleInv tr) : TripleInv tr2 := by
  unfold gearLevelT at h
  rw [except_bind_ok_iff] at h
  obtain ⟨n, hn, h⟩ := h
  rw [except_bind_ok_iff] at h
  obtain ⟨v, hv, h⟩ := h
  rw [except_pure_ok_iff] at h
  rw [← h]
  intro x
  rw [show PresetTriple.modes ⟨tr.modes ++ [.pstr ("gearMode-" ++ pyStr n)],
      dinsert tr.fwd (.pstr ("gearMode-" ++ pyStr n)) value,
      dinsert tr.rev (.pstr ("gearMode-" ++ pyStr n)) ⟨value, v⟩⟩
    = tr.modes ++ [.pstr ("gearMode-" ++ pyStr n)] from rfl]
  rw [show PresetTriple.rev ⟨tr.modes ++ [.pstr ("gearMode-" ++ pyStr n)],
      dinsert tr.fwd (.pstr ("gearMode-" ++ pyStr n)) value,
      dinsert tr.rev (.pstr ("gearMode-" ++ pyStr n)) ⟨value, v⟩⟩
    = dinsert tr.rev (.pstr ("gearMode-" ++ pyStr n)) ⟨value, v⟩ from rfl]
  rw [List.mem_append, List.mem_singleton, mem_dkeys_dinsert, hinv x]
  tauto

/-- The gearMode level loop preserves the invariant. -/
theorem gearLevelsT_inv : ∀ (levels : List PyVal) (value : PyVal) (tr tr2 : PresetTriple),
    gearLevelsT tr value levels = .ok tr2 → TripleInv tr → TripleInv tr2
  | [], value, tr, tr2, h, hinv => by
      rw [show gearLevelsT tr value [] = pure tr from rfl, except_pure_ok_iff] at h
      rw [← h]
      exact hinv
  | level :: rest, value, tr, tr2, h, hinv => by
      rw [show gearLevelsT tr value (level :: rest)
          = (gearLevelT value tr level >>= fun t2 => gearLevelsT t2 value rest) from rfl,
        except_bind_ok_iff] at h
      obtain ⟨t2, ht2, h⟩ := h
      exact gearLevelsT_inv rest value t2 tr2 h (gearLevelT_inv value level tr t2 ht2 hinv)

/-- A gearMode sub step preserves the invariant. -/
theorem gearSubT_inv (value sub : PyVal) (tr tr2 : PresetTriple)
    (h : gearSubT value tr sub = .ok tr2) (hinv : TripleInv tr) : TripleInv tr2 := by
  unfold gearSubT at h
  rw [except_bind_ok_iff] at h
  obtain ⟨n, hn, h⟩ := h
  by_cases h1 : (!(pyEq n (.pstr "gearMode"))) = true
  · rw [if_pos h1, except_pure_ok_iff] at h
    rw [← h]
    exact hinv
  · rw [if_neg h1, except_bind_ok_iff] at h
    obtain ⟨optsV, ho, h⟩ := h
    rw [except_bind_ok_iff] at h
    obtain ⟨levels, hl, h⟩ := h
    exact gearLevelsT_inv levels value tr tr2 h hinv

/-- The gearMode sub loop preserves the invariant. -/
theorem gearSubsT_inv : ∀ (subs : List PyVal) (value : PyVal) (tr tr2 : PresetTriple),
    gearSubsT tr value subs = .ok tr2 → TripleInv tr → TripleInv tr2
  | [], value, tr, tr2, h, hinv => by
      rw [show gearSubsT tr value [] = pure tr from rfl, except_pure_ok_iff] at h
      rw [← h]
      exact hinv
  | sub :: rest, value, tr, tr2, h, hinv => by
      rw [show gearSubsT tr value (sub :: rest)
          = (gearSubT value tr sub >>= fun t2 => gearSubsT t2 value rest) from rfl,
        except_bind_ok_iff] at h
      obtain ⟨t2, ht2, h⟩ := h
      exact gearSubsT_inv rest value t2 tr2 h (gearSubT_inv value sub tr t2 ht2 hinv)

/-- A work option step preserves the invariant: both the gearMode branch
and the flat branch register the name and the reverse payload in lockstep. -/
theorem workOptionT_inv (modeField o : PyVal) (tr tr2 : PresetTriple)
    (h : workOptionT modeField tr o = .ok tr2) (hinv : TripleInv tr) : TripleInv tr2 := by
  unfold workOptionT at h
  rw [except_bind_ok_iff] at h
  obtain ⟨name, hn, h⟩ := h
  rw [except_bind_ok_iff] at h
  obtain ⟨value, hv, h⟩ := h
  by_cases h1 : pyEq name (.pstr "gearMode") = true
  · rw [if_pos h1, except_bind_ok_iff] at h
    obtain ⟨subsV, hs, h⟩ := h
    rw [except_bind_ok_iff] at h
    obtain ⟨subs, hsub, h⟩ := h
    exact gearSubsT_inv subs value tr tr2 h hinv
  · rw [if_neg h1, except_bind_ok_iff] at h
    obtain ⟨optsV, ho, h⟩ := h
    rw [except_bind_ok_iff] at h
    obtain ⟨opts, hop, h⟩ := h
    rw [except_bind_ok_iff] at h
    obtain ⟨defaultVal, hd, h⟩ := h
    rw [except_pure_ok_iff] at h
    rw [← h]
    intro x
    rw [show PresetTriple.modes ⟨tr.modes ++ [name], dinsert tr.fwd name value,
        dinsert tr.rev name ⟨value, defaultVal⟩⟩ = tr.modes ++ [name] from rfl]
    rw [show PresetTriple.rev ⟨tr.modes ++ [name], dinsert tr.fwd name value,
        dinsert tr.rev name ⟨value, defaultVal⟩⟩
      = dinsert tr.rev name ⟨value, defaultVal⟩ from rfl]
    rw [List.mem_append, List.mem_singleton, mem_dkeys_dinsert, hinv x]
    tauto

/-- The work option loop preserves the invariant. -/
theorem workOptionsT_inv : ∀ (opts : List PyVal) (mf : PyVal) (tr tr2 : PresetTriple),
    workOptionsT tr mf opts = .ok tr2 → TripleInv tr → TripleInv tr2
  | [], mf, tr, tr2, h, hinv => by
      rw [show workOptionsT tr mf [] = pure tr from rfl, except_pure_ok_iff] at h
      rw [← h]
      exact hinv
  | o :: rest, mf, tr, tr2, h, hinv => by
      rw [show workOptionsT tr mf (o :: rest)
          = (workOptionT mf tr o >>= fun t2 => workOptionsT t2 mf rest) from rfl,
        except_bind_ok_iff] at h
      obtain ⟨t2, ht2, h⟩ := h
      exact workOptionsT_inv rest mf t2 tr2 h (workOptionT_inv mf o tr t2 ht2 hinv)

/-- The containers the work_mode branch builds satisfy the invariant. -/
theorem workModeCapT_inv (cap : PyVal) (tr : PresetTriple)
    (h : workModeCapT cap = .ok tr) : TripleInv tr := by
  unfold workModeCapT at h
  rw [except_bind_ok_iff] at h
  obtain ⟨params, hp, h⟩ := h
  rw [except_bind_ok_iff] at h
  obtain ⟨fieldsV, hf, h⟩ := h
  rw [except_bind_ok_iff] at h
  obtain ⟨fields, hfl, h⟩ := h
  rw [except_bind_ok_iff] at h
  obtain ⟨workField, hw, h⟩ := h
  rw [except_bind_ok_iff] at h
  obtain ⟨modeField, hm, h⟩ := h
  cases workField with
  | none =>
      cases modeField with
      | none =>
          rw [except_pure_ok_iff] at h
          rw [← h]
          exact tripleInv_empty
      | some mf =>
          rw [except_pure_ok_iff] at h
          rw [← h]
          exact tripleInv_empty
  | some wf =>
      cases modeField with
      | none =>
          rw [except_pure_ok_iff] at h
          rw [← h]
          exact tripleInv_empty
      | some mf =>
          rw [except_bind_ok_iff] at h
          obtain ⟨optsV, ho, h⟩ := h
          rw [except_bind_ok_iff] at h
          obtain ⟨opts, hop, h⟩ := h
          exact workOptionsT_inv opts mf ⟨[], [], []⟩ tr h tripleInv_empty

/-- A successful capability dispatch either leaves the preset containers
untouched or replaces them by containers the work_mode branch built. -/
theorem processCap_preset (c : PyVal) (st st2 : ModeState)
    (h : processCap st c = .ok st2) :
    presetTriple st2 = presetTriple st ∨
    ∃ tr, workModeCapT c = .ok tr ∧ presetTriple st2 = tr := by
  unfold processCap at h
  rw [except_bind_ok_iff] at h
  obtain ⟨t, ht, h⟩ := h
  by_cases h1 : pyEq t (.pstr "devices.capabilities.on_off") = true
  · rw [if_pos h1, except_bind_ok_iff] at h
    obtain ⟨params, hp, h⟩ := h
    rw [except_bind_ok_iff] at h
    obtain ⟨optsV, ho, h⟩ := h
    rw [except_bind_ok_iff] at h
    obtain ⟨opts, hi, h⟩ := h
    obtain ⟨ops, hops, hM, hF, hR, hT⟩ := processOnOffOptions_trace opts st st2 h
    exact Or.inl hT
  · rw [if_neg h1] at h
    by_cases h2 : pyEq t (.pstr "devices.capabilities.temperature_setting") = true
    · rw [if_pos h2, except_bind_ok_iff] at h
      obtain ⟨inst1, hin, h⟩ := h
      by_cases h3 : (pyEq inst1 (.pstr "targetTemperature") ||
          pyEq inst1 (.pstr "sliderTemperature")) = true
      · rw [if_pos h3, except_bind_ok_iff] at h
        obtain ⟨params, hp, h⟩ := h
        rw [except_bind_ok_iff] at h
        obtain ⟨fieldsV, hf, h⟩ := h
        rw [except_bind_ok_iff] at h
        obtain ⟨fields, hfl, h⟩ := h
        obtain ⟨a1, a2, a3, a4⟩ := processTempFields_frame fields _ st2 h
        exact Or.inl a4
      · rw [if_neg h3, except_pure_ok_iff] at h
        rw [← h]
        exact Or.inl rfl
    · rw [if_neg h2] at h
      by_cases h4 : pyEq t (.pstr "devices.capabilities.work_mode") = true
      · rw [if_pos h4, processWorkModeCap_factor, except_map_ok_iff] at h
        obtain ⟨tr, htr, h⟩ := h
        refine Or.inr ⟨tr, htr, ?_⟩
        rw [← h, presetTriple_setTriple]
      · rw [if_neg h4] at h
        by_cases h5 : pyEq t (.pstr "devices.capabilities.property") = true
        · rw [if_pos h5, except_bind_ok_iff] at h
          obtain ⟨i1, hi1, h⟩ := h
          rw [except_pure_ok_iff] at h
          rw [← h]
          exact Or.inl rfl
        · rw [if_neg h5, except_pure_ok_iff] at h
          rw [← h]
          exact Or.inl rfl

/-- The capability loop keeps the invariant on the preset containers. -/
theorem processCapabilities_preset_inv : ∀ (caps : List PyVal) (st0 st : ModeState),
    processCapabilities st0 caps = .ok st → TripleInv (presetTriple st0) →
    TripleInv (presetTriple st)
  | [], st0, st, h, hinv => by
      rw [show processCapabilities st0 [] = pure st0 from rfl, except_pure_ok_iff] at h
      rw [← h]
      exact hinv
  | c :: rest, st0, st, h, hinv => by
      rw [show processCapabilities st0 (c :: rest)
          = (processCap st0 c >>= fun s => processCapabilities s rest) from rfl,
        except_bind_ok_iff] at h
      obtain ⟨st1, hst1, h⟩ := h
      refine processCapabilities_preset_inv rest st1 st h ?_
      rcases processCap_preset c st0 st1 hst1 with heq | ⟨tr, htr, heq⟩
      · rw [heq]
        exact hinv
      · rw [heq]
        exact workModeCapT_inv c tr htr

/-- Claim C4: in every successfully built model the set of advertised
preset names equals the set of keys of the reverse preset map: every
preset name has a stored workMode with modeValue payload and every stored
payload key is an advertised preset name. -/
theorem claim_C4_preset_containers (caps : List PyVal) (st : ModeState)
    (h : processCapabilities initState caps = .ok st) :
    ∀ x, x ∈ st.preset_modes ↔ x ∈ dkeys st.preset_modes_mapping_set := by
  have hinv := processCapabilities_preset_inv caps initState st h
    (by intro x; simp [presetTriple, initState, dkeys])
  exact hinv

/-- The example work_mode capability of the gear hierarchy: a gearMode
group with three levels and a flat Fan mode. -/
def exC4cap : PyVal := .pdict
  [("type", .pstr "devices.capabilities.work_mode"),
   ("parameters", .pdict [("fields", .plist
     [.pdict [("fieldName", .pstr "workMode"),
       ("options", .plist
         [.pdict [("name", .pstr "gearMode"), ("value", .pint 1)],
          .pdict [("name", .pstr "Fan"), ("value", .pint 2)]])],
      .pdict [("fieldName", .pstr "modeValue"),
       ("options", .plist
         [.pdict [("name", .pstr "gearMode"),
           ("options", .plist
             [.pdict [("name", .pstr "Low"), ("value", .pint 1)],
              .pdict [("name", .pstr "Medium"), ("value", .pint 2)],
              .pdict [("name", .pstr "High"), ("value", .pint 3)]])]])]])])]

/-- The model built from the example work_mode capability. -/
def exC4st : ModeState :=
  { supported_features := 0 ||| PRESET_MODE_FLAG
    hvac_modes := []
    hvac_modes_mapping := []
    hvac_modes_mapping_set := []
    preset_modes := [.pstr "gearMode-Low", .pstr "gearMode-Medium",
      .pstr "gearMode-High", .pstr "Fan"]
    preset_modes_mapping := [(.pstr "gearMode-Low", .pint 1),
      (.pstr "gearMode-Medium", .pint 1), (.pstr "gearMode-High", .pint 1),
      (.pstr "Fan", .pint 2)]
    preset_modes_mapping_set := [(.pstr "gearMode-Low", ⟨.pint 1, .pint 1⟩),
      (.pstr "gearMode-Medium", ⟨.pint 1, .pint 2⟩),
      (.pstr "gearMode-High", ⟨.pint 1, .pint 3⟩),
      (.pstr "Fan", ⟨.pint 2, .pint 0⟩)]
    max_temp := none
    min_temp := none
    target_temperature_step := none
    temperature_unit_attr := none }

/-- Witness for claim C4 at the example gear hierarchy capability,
instantiated at the composite name gearMode-Low and at a name that is no
preset. -/
theorem claim_C4_preset_containers_witness :
    ((.pstr "gearMode-Low" : PyVal) ∈ exC4st.preset_modes ↔
      (.pstr "gearMode-Low" : PyVal) ∈ dkeys exC4st.preset_modes_mapping_set) ∧
    ((.pstr "nope" : PyVal) ∈ exC4st.preset_modes ↔
      (.pstr "nope" : PyVal) ∈ dkeys exC4st.preset_modes_mapping_set) :=
  ⟨claim_C4_preset_containers [exC4cap] exC4st (by decide) (.pstr "gearMode-Low"),
   claim_C4_preset_containers [exC4cap] exC4st (by decide) (.pstr "nope")⟩
